import Mathlib

/-!
Verification of the lexer and parser of the `lua-compiler` repository
(`src/lexer.rs`, `src/parser.rs`) against its natural-language specification.

The Rust source is shallowly embedded: every struct becomes a structure,
every method a function on that structure, and the `&mut self` methods
thread the whole state explicitly.  Rust panics (Option::unwrap on None,
overflow-checked usize subtraction, byte-slice range faults) are modelled
as the `Except`-error outcome `RustPanic`; a Rust function that cannot
panic is a plain function.  `f64` literal payloads are modelled exactly as
unreduced fractions (`F64`): every numeric fact used below depends only on
whether the numeral parses and whether the substituted value is `0`, never
on IEEE-754 rounding, and no code path compares two differently built
`NUMBER` payloads.  The `log_error!` macro prints a diagnostic to the console and
is modelled by appending a structured error record to an `errors` list
carried in the state, next to the `errored` flag the source sets at the
same time.
-/

namespace LuaCompiler

/-- Panic outcomes of the Rust source. `usizeUnderflow` is the
overflow-checked `usize` subtraction in the short-string closure (debug
profile; in release the wrapped index makes the following byte-slice
panic instead, so the abort is the same). -/
inductive RustPanic where
  | unwrapNone
  | usizeUnderflow
  | sliceIndexFault
  deriving Repr, DecidableEq

/-- Exact value of an `f64` literal: the unreduced fraction
`num / den`, kept unnormalised so that every lexer run reduces inside
the kernel (see the header comment). -/
structure F64 where
  num : Int
  den : Nat
  deriving Repr, DecidableEq

/-- Token enum of `lexer.rs` (names kept verbatim).  The `f64` payload of
`NUMBER` is modelled as an exact unreduced fraction. -/
inductive Token where
  | AND | END | BREAK | DO | ELSE | ELSEIF | FALSE | FOR | FUNCTION | IF
  | IN | LOCAL | NIL | NOT | OR | REPEAT | RETURN | THEN | TRUE | UNTIL | WHILE
  | NUMBER (value : F64)
  | ADD | SUBTRACT | MULTIPLY | DIVIDE
  | LEFT_PAREN | RIGHT_PAREN | LEFT_BRACKET | RIGHT_BRACKET | LEFT_BRACE | RIGHT_BRACE
  | GREATER_THAN | LESS_THAN | GREATER_EQUAL | LESS_EQUAL
  | CONCAT | DOTS
  | STRING (s : String)
  | NAME (s : String)
  | XOR | MODULO | HASHTAG | ASSIGN | EQ | NEQ
  | SEMICOLON | COLON | COMMA | DOT
  | UNDEFINED
  deriving Repr

/-- Injective key of a token: constructor index together with the `NUMBER`
and string payloads.  Equality of tokens is decided through this key; the
automatically derived instance produces one expression for all 51 × 51
constructor pairs, far too deeply nested for comfortable kernel processing. -/
def Token.key : Token → Nat × Int × Nat × String
  | .AND => (0, 0, 0, "")
  | .END => (1, 0, 0, "")
  | .BREAK => (2, 0, 0, "")
  | .DO => (3, 0, 0, "")
  | .ELSE => (4, 0, 0, "")
  | .ELSEIF => (5, 0, 0, "")
  | .FALSE => (6, 0, 0, "")
  | .FOR => (7, 0, 0, "")
  | .FUNCTION => (8, 0, 0, "")
  | .IF => (9, 0, 0, "")
  | .IN => (10, 0, 0, "")
  | .LOCAL => (11, 0, 0, "")
  | .NIL => (12, 0, 0, "")
  | .NOT => (13, 0, 0, "")
  | .OR => (14, 0, 0, "")
  | .REPEAT => (15, 0, 0, "")
  | .RETURN => (16, 0, 0, "")
  | .THEN => (17, 0, 0, "")
  | .TRUE => (18, 0, 0, "")
  | .UNTIL => (19, 0, 0, "")
  | .WHILE => (20, 0, 0, "")
  | .NUMBER v => (21, v.num, v.den, "")
  | .ADD => (22, 0, 0, "")
  | .SUBTRACT => (23, 0, 0, "")
  | .MULTIPLY => (24, 0, 0, "")
  | .DIVIDE => (25, 0, 0, "")
  | .LEFT_PAREN => (26, 0, 0, "")
  | .RIGHT_PAREN => (27, 0, 0, "")
  | .LEFT_BRACKET => (28, 0, 0, "")
  | .RIGHT_BRACKET => (29, 0, 0, "")
  | .LEFT_BRACE => (30, 0, 0, "")
  | .RIGHT_BRACE => (31, 0, 0, "")
  | .GREATER_THAN => (32, 0, 0, "")
  | .LESS_THAN => (33, 0, 0, "")
  | .GREATER_EQUAL => (34, 0, 0, "")
  | .LESS_EQUAL => (35, 0, 0, "")
  | .CONCAT => (36, 0, 0, "")
  | .DOTS => (37, 0, 0, "")
  | .STRING s => (38, 0, 0, s)
  | .NAME s => (39, 0, 0, s)
  | .XOR => (40, 0, 0, "")
  | .MODULO => (41, 0, 0, "")
  | .HASHTAG => (42, 0, 0, "")
  | .ASSIGN => (43, 0, 0, "")
  | .EQ => (44, 0, 0, "")
  | .NEQ => (45, 0, 0, "")
  | .SEMICOLON => (46, 0, 0, "")
  | .COLON => (47, 0, 0, "")
  | .COMMA => (48, 0, 0, "")
  | .DOT => (49, 0, 0, "")
  | .UNDEFINED => (50, 0, 0, "")

/-- Left inverse of `Token.key`, witnessing its injectivity. -/
def Token.ofKey (k : Nat × Int × Nat × String) : Token :=
  if k.1 = 0 then .AND
  else if k.1 = 1 then .END
  else if k.1 = 2 then .BREAK
  else if k.1 = 3 then .DO
  else if k.1 = 4 then .ELSE
  else if k.1 = 5 then .ELSEIF
  else if k.1 = 6 then .FALSE
  else if k.1 = 7 then .FOR
  else if k.1 = 8 then .FUNCTION
  else if k.1 = 9 then .IF
  else if k.1 = 10 then .IN
  else if k.1 = 11 then .LOCAL
  else if k.1 = 12 then .NIL
  else if k.1 = 13 then .NOT
  else if k.1 = 14 then .OR
  else if k.1 = 15 then .REPEAT
  else if k.1 = 16 then .RETURN
  else if k.1 = 17 then .THEN
  else if k.1 = 18 then .TRUE
  else if k.1 = 19 then .UNTIL
  else if k.1 = 20 then .WHILE
  else if k.1 = 21 then .NUMBER ⟨k.2.1, k.2.2.1⟩
  else if k.1 = 22 then .ADD
  else if k.1 = 23 then .SUBTRACT
  else if k.1 = 24 then .MULTIPLY
  else if k.1 = 25 then .DIVIDE
  else if k.1 = 26 then .LEFT_PAREN
  else if k.1 = 27 then .RIGHT_PAREN
  else if k.1 = 28 then .LEFT_BRACKET
  else if k.1 = 29 then .RIGHT_BRACKET
  else if k.1 = 30 then .LEFT_BRACE
  else if k.1 = 31 then .RIGHT_BRACE
  else if k.1 = 32 then .GREATER_THAN
  else if k.1 = 33 then .LESS_THAN
  else if k.1 = 34 then .GREATER_EQUAL
  else if k.1 = 35 then .LESS_EQUAL
  else if k.1 = 36 then .CONCAT
  else if k.1 = 37 then .DOTS
  else if k.1 = 38 then .STRING k.2.2.2
  else if k.1 = 39 then .NAME k.2.2.2
  else if k.1 = 40 then .XOR
  else if k.1 = 41 then .MODULO
  else if k.1 = 42 then .HASHTAG
  else if k.1 = 43 then .ASSIGN
  else if k.1 = 44 then .EQ
  else if k.1 = 45 then .NEQ
  else if k.1 = 46 then .SEMICOLON
  else if k.1 = 47 then .COLON
  else if k.1 = 48 then .COMMA
  else if k.1 = 49 then .DOT
  else .UNDEFINED

/-- Decidable equality of tokens through the injective key, replacing the
automatically derived instance (see `Token.key`). -/
instance : DecidableEq Token := fun a b =>
  if h : a.key = b.key then
    .isTrue (by
      have ha : Token.ofKey a.key = a := by cases a <;> rfl
      have hb : Token.ofKey b.key = b := by cases b <;> rfl
      rw [← ha, ← hb, h])
  else
    .isFalse (fun hab => h (congrArg Token.key hab))

/-- The `#[derive(Default)]` attribute marks `UNDEFINED` as the default token. -/
instance : Inhabited Token := ⟨Token.UNDEFINED⟩

/-- Embeds `fn is_end_of_line(c: char) -> bool` from `lexer.rs`. -/
def is_end_of_line (c : Char) : Bool :=
  c == '\n'

/-- ASCII fragment of Rust `char::is_whitespace` (Unicode White_Space).
Every input a claim is evaluated on is ASCII, where the two agree. -/
def rust_is_whitespace (c : Char) : Bool :=
  c == ' ' || c == '\t' || c == '\n' || c == '\r' ||
  c == Char.ofNat 0x0B || c == Char.ofNat 0x0C

/-- ASCII fragment of Rust `char::is_numeric`; the claims use ASCII only. -/
def rust_is_numeric (c : Char) : Bool :=
  c.isDigit

/-- ASCII fragment of Rust `char::is_alphabetic`; the claims use ASCII only. -/
def rust_is_alphabetic (c : Char) : Bool :=
  ('a' ≤ c && c ≤ 'z') || ('A' ≤ c && c ≤ 'Z')

/-- ASCII fragment of Rust `char::is_alphanumeric`. -/
def rust_is_alphanumeric (c : Char) : Bool :=
  rust_is_alphabetic c || rust_is_numeric c

/-- Rust `char::is_ascii_hexdigit` (exact, it is ASCII-only by definition). -/
def rust_is_ascii_hexdigit (c : Char) : Bool :=
  c.isDigit || ('a' ≤ c && c ≤ 'f') || ('A' ≤ c && c ≤ 'F')

/-- Longest prefix of decimal digits of a character list, with the rest. -/
def spanDigits : List Char → List Char × List Char
  | [] => ([], [])
  | c :: cs =>
    if c.isDigit then
      let (d, r) := spanDigits cs
      (c :: d, r)
    else ([], c :: cs)

/-- Numeric value of a digit string. -/
def digitsVal (ds : List Char) : Nat :=
  ds.foldl (fun a c => a * 10 + (c.toNat - 48)) 0

/-- Value of a mantissa `i.f` as the unreduced fraction
`(i·10ᵏ + f) / 10ᵏ` where `k` is the number of fractional digits. -/
def mantissaVal (i f : List Char) : F64 :=
  ⟨(digitsVal i : Int) * (10 : Int) ^ f.length + (digitsVal f : Int),
   (10 : Nat) ^ f.length⟩

/-- Scale a mantissa by a decimal exponent, keeping the fraction
unreduced. -/
def applyExp (q : F64) (e : Int) : F64 :=
  if 0 ≤ e then ⟨q.num * (10 : Int) ^ e.toNat, q.den⟩
  else ⟨q.num, q.den * (10 : Nat) ^ (-e).toNat⟩

/-- Exponent suffix of the Rust `f64` grammar: empty, or
`('e'|'E') Sign? Digit+` consuming the whole rest. -/
def rustParseExpPart : List Char → Option Int
  | [] => some 0
  | c :: cs =>
    if c == 'e' || c == 'E' then
      let (sgn, cs') : Int × List Char :=
        match cs with
        | '+' :: r => (1, r)
        | '-' :: r => (-1, r)
        | r => (1, r)
      let (d, r) := spanDigits cs'
      if d.isEmpty || !r.isEmpty then none else some (sgn * (digitsVal d : Int))
    else none

/-- Unsigned part of the Rust `f64::from_str` grammar:
`Digit+ '.'? Digit* Exp? | '.' Digit+ Exp?`.  The `inf`/`infinity`/`nan`
alternatives are omitted: the lexer only ever feeds this function strings
drawn from digits, `e`, `.` and `-`, so they are unreachable. -/
def rustParseF64Core (s : List Char) : Option F64 :=
  match s with
  | '.' :: rest =>
    let (d, r) := spanDigits rest
    if d.isEmpty then none
    else (rustParseExpPart r).map (applyExp (mantissaVal [] d))
  | _ =>
    let (i, r) := spanDigits s
    if i.isEmpty then none
    else
      match r with
      | '.' :: r2 =>
        let (f, r3) := spanDigits r2
        (rustParseExpPart r3).map (applyExp (mantissaVal i f))
      | _ => (rustParseExpPart r).map (applyExp (mantissaVal i []))

/-- Rust `str::parse::<f64>()`, with the value taken exactly instead of
rounded to the nearest `f64` (see the header comment). -/
def rustParseF64 (s : List Char) : Option F64 :=
  match s with
  | '+' :: rest => rustParseF64Core rest
  | '-' :: rest => (rustParseF64Core rest).map (fun q => ⟨-q.num, q.den⟩)
  | _ => rustParseF64Core s

/-- Value of one hexadecimal digit. -/
def hexDigitVal (c : Char) : Nat :=
  if c.isDigit then c.toNat - 48
  else if 'a' ≤ c && c ≤ 'f' then c.toNat - 87
  else c.toNat - 55

/-- Rust `i64::from_str_radix(s, 16)` restricted to the strings the lexer
can build (no sign characters can occur in the scanned slice): errors on
an empty string, a non-hex digit, or `i64` overflow. -/
def i64_from_str_radix16 (s : List Char) : Option Int :=
  if s.isEmpty || s.any (fun c => !rust_is_ascii_hexdigit c) then none
  else
    let v := s.foldl (fun a c => a * 16 + hexDigitVal c) 0
    if v ≤ 0x7FFFFFFFFFFFFFFF then some (v : Int) else none

/-- The keyword table built in `Lexer::tokenize`. -/
def keywords (s : String) : Option Token :=
  match s with
  | "and" => some .AND
  | "or" => some .OR
  | "while" => some .WHILE
  | "for" => some .FOR
  | "repeat" => some .REPEAT
  | "return" => some .RETURN
  | "then" => some .THEN
  | "true" => some .TRUE
  | "until" => some .UNTIL
  | "function" => some .FUNCTION
  | "if" => some .IF
  | "in" => some .IN
  | "local" => some .LOCAL
  | "nil" => some .NIL
  | "end" => some .END
  | "break" => some .BREAK
  | "do" => some .DO
  | "else" => some .ELSE
  | "elseif" => some .ELSEIF
  | "false" => some .FALSE
  | "not" => some .NOT
  | _ => none

/-- Structured record of one `log_error!` emission of the lexer. -/
inductive LexError where
  | unclosedString (column line : Nat)
  | badHex (column line : Nat)
  | badNumber (text : List Char) (column line : Nat)
  | undefinedToken (c : Char) (column line : Nat)
  deriving Repr, DecidableEq

/-- Embeds `struct Lexer` of `lexer.rs`.  The `String` tape is kept as its
character list; byte positions are recovered through `utf8EncodeChar`
below.  `errors` records the `log_error!` emissions (console output in
the source), in order. -/
structure Lexer where
  tape : List Char
  cursor : Int
  line : Nat
  errored : Bool
  column : Nat
  errors : List LexError
  deriving Repr, DecidableEq

/-- Embeds `as usize` on a Rust `isize` value: two's-complement reinterpretation. -/
def toUsize (i : Int) : Nat :=
  (i % ((2 : Int) ^ 64)).toNat

/-- UTF-8 encoding of one character. -/
def utf8EncodeChar (c : Char) : List Nat :=
  let n := c.toNat
  if n < 0x80 then [n]
  else if n < 0x800 then
    [0xC0 ||| (n >>> 6), 0x80 ||| (n &&& 0x3F)]
  else if n < 0x10000 then
    [0xE0 ||| (n >>> 12), 0x80 ||| ((n >>> 6) &&& 0x3F), 0x80 ||| (n &&& 0x3F)]
  else
    [0xF0 ||| (n >>> 18), 0x80 ||| ((n >>> 12) &&& 0x3F),
     0x80 ||| ((n >>> 6) &&& 0x3F), 0x80 ||| (n &&& 0x3F)]

/-- Embeds `String::len` of the tape: its length in UTF-8 bytes. -/
def byteLen (cs : List Char) : Nat :=
  (cs.map (fun c => (utf8EncodeChar c).length)).sum

/-- Rust `str::is_char_boundary`, on the character-list view of the tape. -/
def isCharBoundary : List Char → Nat → Bool
  | _, 0 => true
  | [], _ + 1 => false
  | c :: cs, n + 1 =>
    let k := (utf8EncodeChar c).length
    if k ≤ n + 1 then isCharBoundary cs (n + 1 - k) else false

namespace Lexer

/-- Embeds `Lexer::new` (the field values of the source constructor). -/
def new (text : List Char) : Lexer :=
  { line := 1, column := 0, errored := false, tape := text, cursor := -1, errors := [] }

/-- Embeds `Lexer::is_end_of_file`: `self.cursor as usize >= self.tape.len()`
(a character index compared against the byte length). -/
def is_end_of_file (st : Lexer) : Bool :=
  decide (byteLen st.tape ≤ toUsize st.cursor)

/-- Embeds `Lexer::is_end_of_file_nth`: `n as usize >= self.tape.len()`. -/
def is_end_of_file_nth (st : Lexer) (n : Int) : Bool :=
  decide (byteLen st.tape ≤ toUsize n)

/-- Embeds `Lexer::advance`.  The `unwrap` panics when the cursor is below the
byte length but past the last character (multi-byte tapes). -/
def advance (st : Lexer) : Except RustPanic (Option Char × Lexer) :=
  let st := { st with cursor := st.cursor + 1, column := st.column + 1 }
  if st.is_end_of_file then .ok (none, st)
  else
    match st.tape.get? (toUsize st.cursor) with
    | some c => .ok (some c, st)
    | none => .error .unwrapNone

/-- Embeds `Lexer::advance_nth`: advance `n` times, dropping the characters
(the Rust loop `for _ in 0..n` is empty when `n ≤ 0`). -/
def advance_nth (st : Lexer) (n : Int) : Except RustPanic Lexer :=
  go n.toNat st
where
  go : Nat → Lexer → Except RustPanic Lexer
  | 0, st => .ok st
  | k + 1, st =>
    match advance st with
    | .error e => .error e
    | .ok (_, st') => go k st'

/-- Embeds `Lexer::peek`. -/
def peek (st : Lexer) : Option Char :=
  st.tape.get? (toUsize st.cursor + 1)

/-- Embeds `Lexer::peek_nth`: `chars().nth(self.cursor as usize + n as usize)`. -/
def peek_nth (st : Lexer) (n : Int) : Option Char :=
  st.tape.get? (toUsize st.cursor + toUsize n)

/-- Embeds `self.peek().unwrap_or_default()` (`char` defaults to `'\0'`). -/
def peekD (st : Lexer) : Char :=
  st.peek.getD (Char.ofNat 0)

/-- Embeds `self.peek_nth(n).unwrap_or_default()`. -/
def peek_nthD (st : Lexer) (n : Int) : Char :=
  (st.peek_nth n).getD (Char.ofNat 0)

/-- Embeds `Lexer::sub_tape(start, size)`: the byte slice
`self.tape[start..start + size]`, panicking exactly when the Rust string
slice would (range past the end or off a character boundary). -/
def sub_tape (st : Lexer) (start size : Nat) : Except RustPanic (List Nat) :=
  if isCharBoundary st.tape start && isCharBoundary st.tape (start + size) then
    .ok (((st.tape.map utf8EncodeChar).flatten.drop start).take size)
  else .error .sliceIndexFault

/-- Loop body of `Lexer::while_peek`.  `p` may panic (the short-string
closure calls `sub_tape`).  The loop ends at the latest when the peek
runs off the tape, so each step either stops or moves one character
further along; the structural fuel below is `tape.length + 2`, which the
loop can never exhaust, keeping the definition reducible by `rfl`. -/
def while_peekGo (tape : List Char) (base : Nat)
    (p : Char → Nat → Except RustPanic Bool) (f : Char → Bool) :
    Nat → Nat → List Char → Except RustPanic (Nat × List Char)
  | 0, currentPeek, stack => .ok (currentPeek, stack)   -- unreachable
  | fuel + 1, currentPeek, stack =>
    match tape.get? (base + currentPeek) with
    | none => .ok (currentPeek, stack)
    | some c =>
      let stack := stack ++ [c]
      match p c currentPeek with
      | .error e => .error e
      | .ok true => .ok (currentPeek, stack)
      | .ok false =>
        if f c then while_peekGo tape base p f fuel (currentPeek + 1) stack
        else .ok (currentPeek, stack)

/-- Embeds `Lexer::while_peek`: scan forward from the cursor, collecting
characters until `p` fires, `f` rejects, or the tape ends; returns the
final `current_peek` and the collected stack. -/
def while_peek (st : Lexer)
    (p : Char → Nat → Except RustPanic Bool) (f : Char → Bool) :
    Except RustPanic (Nat × List Char) :=
  while_peekGo st.tape (toUsize st.cursor) p f (st.tape.length + 2) 1 []

/-- The closure passed to `while_peek` by the long-comment and long-string
branches: fire on the first `]` that is followed by another `]`. -/
def long_bracket_p (st : Lexer) : Char → Nat → Except RustPanic Bool :=
  fun c n => .ok (c == ']' && st.peek_nthD ((n : Int) + 1) == ']')

/-- The closure passed to `while_peek` by the short-string branch:
`self.sub_tape((self.cursor as usize + n) - 2, 3) != "\\\r\n" && is_end_of_line(c)`.
The `usize` subtraction underflows (and panics) whenever the opening
quote sits at byte offset `0` or `1` of the tape. -/
def short_string_p (st : Lexer) : Char → Nat → Except RustPanic Bool :=
  fun c n =>
    if toUsize st.cursor + n < 2 then .error .usizeUnderflow
    else
      match st.sub_tape (toUsize st.cursor + n - 2) 3 with
      | .error e => .error e
      | .ok bytes => .ok (decide (bytes ≠ [92, 13, 10]) && is_end_of_line c)

/-- The `let token = match c { ... }` operator table at the end of the
`tokenize` loop body: single- and double-character operators, with the
`skip_char` flag for the two-character forms, and `UNDEFINED` otherwise. -/
def single_char_token (st : Lexer) (c : Char) : Token × Bool :=
  match c with
  | '+' => (.ADD, false)
  | '-' => (.SUBTRACT, false)
  | '*' => (.MULTIPLY, false)
  | '/' => (.DIVIDE, false)
  | '(' => (.LEFT_PAREN, false)
  | ')' => (.RIGHT_PAREN, false)
  | '^' => (.XOR, false)
  | '.' => (.DOT, false)
  | ',' => (.COMMA, false)
  | '#' => (.HASHTAG, false)
  | ';' => (.SEMICOLON, false)
  | ':' => (.COLON, false)
  | ']' => (.RIGHT_BRACKET, false)
  | '[' => (.LEFT_BRACKET, false)
  | '{' => (.LEFT_BRACE, false)
  | '}' => (.RIGHT_BRACE, false)
  | '%' => (.MODULO, false)
  | '<' => if st.peekD == '=' then (.LESS_EQUAL, true) else (.LESS_THAN, false)
  | '>' => if st.peekD == '=' then (.GREATER_EQUAL, true) else (.GREATER_THAN, false)
  | '~' => if st.peekD == '=' then (.NEQ, true) else (.UNDEFINED, false)
  | '=' => if st.peekD == '=' then (.EQ, true) else (.ASSIGN, false)
  | _ => (.UNDEFINED, false)

/-- The trailing branches of the `tokenize` loop body (identifier/keyword
scanning and the single-character token table).  They are split out
because the numeric branch of the source falls through to them when the
scanned lexeme was only a bare `-` or `.`. -/
def tokenizeStepTail (c : Char) (st : Lexer) (tokens : List Token) :
    Except RustPanic (List Token × Lexer) :=
  if rust_is_alphabetic c || c == '_' then
    match st.while_peek (fun ch _ => .ok (is_end_of_line ch)) rust_is_alphanumeric with
    | .error e => .error e
    | .ok (n, stack) =>
      let string := String.mk (c :: stack.dropLast)
      let tok :=
        match keywords string with
        | some t => t
        | none => Token.NAME string
      match st.advance_nth ((n : Int) - 1) with
      | .error e => .error e
      | .ok st1 => .ok (tokens ++ [tok], st1)
  else
    let (token, skip_char) := single_char_token st c
    let st1 :=
      if token == Token.UNDEFINED then
        { st with errored := true,
                  errors := st.errors ++ [LexError.undefinedToken c st.column st.line] }
      else st
    let tokens := tokens ++ [token]
    if skip_char then
      match st1.advance with
      | .error e => .error e
      | .ok (_, st2) => .ok (tokens, st2)
    else .ok (tokens, st1)

/-- Long-comment branch of the `tokenize` loop body: `--[[ ... ]]`. -/
def step_long_comment (st : Lexer) (tokens : List Token) :
    Except RustPanic (List Token × Lexer) :=
  match st.while_peek (long_bracket_p st) (fun _ => true) with
  | .error e => .error e
  | .ok (n, _) =>
    match st.advance_nth ((n : Int) + 1) with
    | .error e => .error e
    | .ok st1 => .ok (tokens, st1)

/-- Short-comment branch: read until the end of the line. -/
def step_short_comment (st : Lexer) (tokens : List Token) :
    Except RustPanic (List Token × Lexer) :=
  match st.while_peek (fun ch _ => .ok (is_end_of_line ch)) (fun _ => true) with
  | .error e => .error e
  | .ok (n, _) =>
    match st.advance_nth ((n : Int) - 1) with
    | .error e => .error e
    | .ok st1 => .ok (tokens, st1)

/-- Long-string branch: `[[ ... ]]` (the second `[` is consumed first). -/
def step_long_string (st : Lexer) (tokens : List Token) :
    Except RustPanic (List Token × Lexer) :=
  match st.advance with
  | .error e => .error e
  | .ok (_, st1) =>
    match st1.while_peek (long_bracket_p st1) (fun _ => true) with
    | .error e => .error e
    | .ok (n, stack) =>
      match st1.advance_nth ((n : Int) + 1) with
      | .error e => .error e
      | .ok st2 => .ok (tokens ++ [Token.STRING (String.mk stack.dropLast)], st2)

/-- The unclosed-string error path: log the diagnostic and set the flag. -/
def unclosed_string_error (st : Lexer) : Lexer :=
  { st with errored := true,
            errors := st.errors ++ [LexError.unclosedString st.column st.line] }

/-- Short-string branch, for a string opened by `"` or `'`. -/
def step_short_string (st : Lexer) (tokens : List Token) :
    Except RustPanic (List Token × Lexer) :=
  match st.while_peek (short_string_p st)
      (fun ch => !(ch == '"' || ch == Char.ofNat 39)) with
  | .error e => .error e
  | .ok (n0, stack) =>
    match stack.getLast? with
    | none => .error .unwrapNone   -- `string.chars().last().unwrap()`
    | some lastc =>
      -- the source binds `end_of_line = is_end_of_line(lastc)`; it is inlined here
      if st.is_end_of_file_nth (st.cursor + (n0 : Int)) || is_end_of_line lastc then
        -- unclosed string: log, set the flag, subtract two "for the CRLF"
        match (unclosed_string_error st).advance_nth
            (if is_end_of_line lastc then (n0 : Int) - 2 else (n0 : Int)) with
        | .error e => .error e
        | .ok st2 => .ok (tokens, st2)
      else
        match st.advance_nth (n0 : Int) with
        | .error e => .error e
        | .ok st2 => .ok (tokens ++ [Token.STRING (String.mk stack.dropLast)], st2)

/-- Embeds `...` / `..` branch (entered when the next character is also `.`). -/
def step_dots (st : Lexer) (tokens : List Token) :
    Except RustPanic (List Token × Lexer) :=
  if st.peek_nthD 2 == '.' then
    match st.advance_nth 2 with
    | .error e => .error e
    | .ok st1 => .ok (tokens ++ [Token.DOTS], st1)
  else
    match st.advance with
    | .error e => .error e
    | .ok (_, st1) => .ok (tokens ++ [Token.CONCAT], st1)

/-- Hexadecimal-number branch (the `x` is consumed first). -/
def step_hex (st : Lexer) (tokens : List Token) :
    Except RustPanic (List Token × Lexer) :=
  match st.advance with
  | .error e => .error e
  | .ok (_, st1) =>
    match st1.while_peek (fun ch _ => .ok (is_end_of_line ch)) rust_is_ascii_hexdigit with
    | .error e => .error e
    | .ok (n, stack) =>
      let string := stack.dropLast
      let (number, st2) : F64 × Lexer :=
        match i64_from_str_radix16 string with
        | some v => (⟨v, 1⟩, st1)
        | none =>
          (⟨0, 1⟩,
           { st1 with errored := true,
                      errors := st1.errors ++ [LexError.badHex st1.column st1.line] })
      match st2.advance_nth ((n : Int) - 1) with
      | .error e => .error e
      | .ok st3 => .ok (tokens ++ [Token.NUMBER number], st3)

/-- Decimal-number branch.  When the scanned lexeme is a bare `-` or `.`
the source falls through to the identifier/operator branches
(`tokenizeStepTail`). -/
def step_number (c : Char) (st : Lexer) (tokens : List Token) :
    Except RustPanic (List Token × Lexer) :=
  match st.while_peek (fun ch _ => .ok (is_end_of_line ch))
      (fun ch => rust_is_numeric ch || ch == 'e' || ch == '.' || ch == '-' || ch == '_') with
  | .error e => .error e
  | .ok (n, stack) =>
    let string := stack.dropLast.filter (fun ch => ch ≠ '_')
    if !((c == '-' || c == '.') && string.isEmpty) then
      let (number, st1) : F64 × Lexer :=
        match rustParseF64 (c :: string) with
        | some v => (v, st)
        | none =>
          (⟨0, 1⟩,
           { st with errored := true,
                     errors := st.errors ++ [LexError.badNumber (c :: string) st.column st.line] })
      match st1.advance_nth ((n : Int) - 1) with
      | .error e => .error e
      | .ok st2 => .ok (tokens ++ [Token.NUMBER number], st2)
    else
      tokenizeStepTail c st tokens

/-- One iteration of the `while let Some(c) = self.advance()` loop of
`Lexer::tokenize`, given the consumed character `c` and the state just
after that `advance`.  Branches appear in source order. -/
def tokenizeStep (c : Char) (st : Lexer) (tokens : List Token) :
    Except RustPanic (List Token × Lexer) :=
  if rust_is_whitespace c && !is_end_of_line c then
    .ok (tokens, st)
  else if is_end_of_line c then
    .ok (tokens, { st with line := st.line + 1, column := 0 })
  else if c == '-' && st.peekD == '-' && st.peek_nthD 2 == '[' && st.peek_nthD 3 == '[' then
    step_long_comment st tokens
  else if c == '-' && st.peekD == '-' then
    step_short_comment st tokens
  else if c == '[' && st.peekD == '[' then
    step_long_string st tokens
  else if c == '"' || c == Char.ofNat 39 then
    step_short_string st tokens
  else if c == '.' && st.peekD == '.' then
    step_dots st tokens
  else if c == '0' && st.peekD == 'x' then
    step_hex st tokens
  else if rust_is_numeric c || c == '-' || c == '.' then
    step_number c st tokens
  else
    tokenizeStepTail c st tokens

/-- The `while let Some(c) = self.advance()` loop of `Lexer::tokenize`.
Each iteration advances the cursor at least once, so `byteLen + 2` fuel
always suffices; the fuel-exhaustion arm is unreachable. -/
def tokenizeLoop : Nat → Lexer → List Token → Except RustPanic (List Token × Lexer)
  | 0, st, tokens => .ok (tokens, st)
  | fuel + 1, st, tokens =>
    match st.advance with
    | .error e => .error e
    | .ok (none, st') => .ok (tokens, st')
    | .ok (some c, st') =>
      match tokenizeStep c st' tokens with
      | .error e => .error e
      | .ok (tokens', st'') => tokenizeLoop fuel st'' tokens'

/-- Embeds `Lexer::tokenize`: run the scanning loop, then return `None` when the
error flag was set and the token vector otherwise. -/
def tokenize (st : Lexer) : Except RustPanic (Option (List Token) × Lexer) :=
  match tokenizeLoop (byteLen st.tape + 2) st [] with
  | .error e => .error e
  | .ok (tokens, st') => .ok (if st'.errored then none else some tokens, st')

end Lexer



/-! ## Parser (`parser.rs`)

The parser methods are mutually recursive and — through the
`var`/`prefixexp` cycle — genuinely non-terminating on some inputs, so
every recursive production takes an explicit fuel argument: a run of the
Rust code terminates with a result exactly when some fuel yields
`PStep.out`, and an infinite mutual recursion (a stack-overflow abort in
Rust) shows up as `PStep.diverged` for every fuel. -/

/-- Sum AST node type of `parser.rs` (constructor names kept verbatim;
`Box`/`Vec`/`Option` become direct children, lists and options). -/
inductive ASTNode where
  | Chunk (statements : List ASTNode) (last : Option ASTNode)
  | Block (chunk : ASTNode)
  | Statement (s : ASTNode)
  | Expression (e : ASTNode)
  | FunctionCall (e : ASTNode)
  | LValueAssign (var_list expression_list : ASTNode)
  | Do (block : ASTNode)
  | While (expression do_block : ASTNode)
  | Repeat (block expression : ASTNode)
  | If (expression block : ASTNode) (elseif : List (ASTNode × ASTNode))
      (then_else : Option ASTNode)
  | ForNumeric (nm from_expression to_expression : ASTNode)
      (step_expression : Option ASTNode) (do_block : ASTNode)
  | ForGeneric (name_list expression_list_1 do_block : ASTNode)
  | Function (function_body : ASTNode)
  | FunctionStatement (func_name function_body : ASTNode)
  | LocalFunction (nm function_body : ASTNode)
  | LocalVariable (name_list : ASTNode) (expression_list : Option ASTNode)
  | Return (e : Option ASTNode)
  | FunctionName (nm : ASTNode) (members : List ASTNode) (colon : Option ASTNode)
  | VariableList (head : ASTNode) (tail_list : List ASTNode)
  | Variable (v : ASTNode)
  | PrefixExpression (e : ASTNode)
  | PrefixExpressionBracketsExpression (prefix_expression expression : ASTNode)
  | PrefixExpressionDotName (prefix_expression nm : ASTNode)
  | PrefixExpressionArgs (prefix_expression arguments : ASTNode)
  | PrefixExpressionNameArgs (prefix_expression nm arguments : ASTNode)
  | NameList (nm : ASTNode) (tail_list : List ASTNode)
  | BinaryOp (left binary_operator right : ASTNode)
  | UnaryOp (unary_operator right : ASTNode)
  | ExpressionList (head_list : List ASTNode) (expression : ASTNode)
  | ArgsParamList (e : Option ASTNode)
  | FunctionBody (parameter_list : Option ASTNode) (block : ASTNode)
  | ParameterListA (name_list : ASTNode) (variadic : Bool)
  | ParameterListB (e : ASTNode)
  | TableConstructor (fields : Option ASTNode)
  | FieldList (field : ASTNode) (separated_fields : List (ASTNode × ASTNode))
      (separator : Option ASTNode)
  | Field (e : ASTNode)
  | FieldA (expression_a expression_b : ASTNode)
  | FieldB (nm expression : ASTNode)
  | Fieldsep (t : ASTNode)
  | Args (a : ASTNode)
  | LastStatement (s : ASTNode)
  | Name (s : String)
  | Token (t : LuaCompiler.Token)
  deriving Repr

/-- Structured record of one parser `log_error!` emission. -/
inductive ParseError where
  | expected (what : String) (found : Token)
  | expectedSymbol (symbol found : Token)
  deriving Repr, DecidableEq

/-- Embeds `struct Parser` of `parser.rs`, with `errors` recording the
`log_error!` emissions (console output in the source), in order. -/
structure Parser where
  tokens : List Token
  cursor : Nat
  errored : Bool
  errors : List ParseError
  deriving Repr, DecidableEq

/-- Outcome of running one parser method (`&mut self` threaded):
`out` is a normal return, `diverged` marks fuel exhaustion — i.e. a run
of the source that never returns. -/
inductive PStep (α : Type) where
  | out (val : α) (st : Parser)
  | diverged
  deriving Repr

/-- Shallow state monad for the parser methods. -/
def P (α : Type) : Type := Parser → PStep α

instance : Monad P where
  pure a := fun st => .out a st
  bind m k := fun st =>
    match m st with
    | .out a st' => k a st'
    | .diverged => .diverged

namespace Parser

/-- Embeds `Parser::new`. -/
def new (tokens : List Token) : Parser :=
  { tokens := tokens, cursor := 0, errored := false, errors := [] }

/-- Embeds `Parser::is_eof`. -/
def is_eof (st : Parser) : Bool :=
  decide (st.tokens.length ≤ st.cursor)

/-- Embeds `Parser::peek` (defined in the source; no production calls it). -/
def peek (st : Parser) : Option Token :=
  st.tokens.get? (st.cursor + 1)

/-- Embeds `Parser::current`: `self.tokens.get(self.cursor).cloned().unwrap_or_default()`. -/
def current (st : Parser) : Token :=
  (st.tokens.get? st.cursor).getD Token.UNDEFINED

/-- Embeds `Parser::is_match`. -/
def is_match (st : Parser) (token : Token) : Bool :=
  !st.is_eof && st.current == token

/-- Embeds `Parser::advance`. -/
def advance (st : Parser) : Parser :=
  { st with cursor := st.cursor + 1 }

/-- Embeds `Parser::backtrack`. Defined in the source but never called by
any production (claim C10); `usize` subtraction is truncated here, which
is observationally irrelevant for an uncalled function. -/
def backtrack (st : Parser) : Parser :=
  { st with cursor := st.cursor - 1 }

/-- Read `self.current()` without consuming. -/
def getCurrent : P Token :=
  fun st => .out st.current st

/-- A bare `self.advance()` inside a production. -/
def advanceM : P Unit :=
  fun st => .out () st.advance

/-- Embeds `Parser::accept`. -/
def accept (token : Token) : P Bool :=
  fun st => if st.is_match token then .out true st.advance else .out false st

/-- Embeds `Parser::report_expected_error`. -/
def report_expected_error (what : String) : P Unit :=
  fun st =>
    .out () { st with errored := true, errors := st.errors ++ [.expected what st.current] }

/-- Embeds `Parser::expect`: accept or log `expected symbol` and set the flag. -/
def expect (token : Token) : P Unit := do
  let b ← accept token
  if b then pure ()
  else fun st =>
    .out () { st with errored := true,
                      errors := st.errors ++ [.expectedSymbol token st.current] }

/-- Embeds `Parser::name`. -/
def name : P (Option ASTNode) :=
  fun st =>
    match st.current with
    | Token.NAME s => .out (some (ASTNode.Name s)) st.advance
    | _ => .out none st

/-- Embeds `Parser::fieldsep`. -/
def fieldsep : P (Option ASTNode) := do
  if ← accept Token.COMMA then
    pure (some (.Fieldsep (.Token Token.COMMA)))
  else if ← accept Token.SEMICOLON then
    pure (some (.Fieldsep (.Token Token.SEMICOLON)))
  else pure none

/-- Rust short-circuit `||` over two effectful boolean checks. -/
def orM (a b : P Bool) : P Bool := do
  if ← a then pure true else b

mutual

/-- Loop of `Parser::explist1`: `while let Some(tree) = self.exp()`. -/
def explist1_loop : Nat → List ASTNode → P (Option ASTNode)
  | 0, _ => fun _ => .diverged
  | fuel + 1, exp_list => do
    match ← exp fuel with
    | none => pure none
    | some tree => do
      if ← accept Token.COMMA then
        explist1_loop fuel (exp_list ++ [tree])
      else
        pure (some (.ExpressionList exp_list tree))

/-- Embeds `Parser::explist1`. -/
def explist1 : Nat → P (Option ASTNode)
  | 0 => fun _ => .diverged
  | fuel + 1 => explist1_loop fuel []

/-- Loop of `Parser::namelist`: `while self.accept(Token::COMMA)`. -/
def namelist_loop : Nat → ASTNode → List ASTNode → P (Option ASTNode)
  | 0, _, _ => fun _ => .diverged
  | fuel + 1, head, name_list => do
    if ← accept Token.COMMA then
      match ← name with
      | none => do report_expected_error "<name>"; pure none
      | some nm => namelist_loop fuel head (name_list ++ [nm])
    else
      pure (some (.NameList head name_list))

/-- Embeds `Parser::namelist`. -/
def namelist : Nat → P (Option ASTNode)
  | 0 => fun _ => .diverged
  | fuel + 1 => do
    match ← name with
    | none => pure none
    | some nm => namelist_loop fuel nm []

/-- Loop of `Parser::varlist`: `while self.accept(Token::COMMA)`. -/
def varlist_loop : Nat → ASTNode → List ASTNode → P (Option ASTNode)
  | 0, _, _ => fun _ => .diverged
  | fuel + 1, head, var_list => do
    if ← accept Token.COMMA then
      match ← var fuel with
      | none => do report_expected_error "<var>"; pure none
      | some v => varlist_loop fuel head (var_list ++ [v])
    else
      pure (some (.VariableList head var_list))

/-- Embeds `Parser::varlist`. -/
def varlist : Nat → P (Option ASTNode)
  | 0 => fun _ => .diverged
  | fuel + 1 => do
    match ← var fuel with
    | none => pure none
    | some v => varlist_loop fuel v []

/-- Dots loop and colon suffix of `Parser::funcname`. -/
def funcname_go : Nat → ASTNode → List ASTNode → P (Option ASTNode)
  | 0, _, _ => fun _ => .diverged
  | fuel + 1, head, name_list => do
    if ← accept Token.DOT then
      match ← name with
      | none => do report_expected_error "<name>"; pure none
      | some nm => funcname_go fuel head (name_list ++ [nm])
    else if ← accept Token.COLON then
      match ← name with
      | none => do report_expected_error "<name>"; pure none
      | some col_name => pure (some (.FunctionName head name_list (some col_name)))
    else
      pure (some (.FunctionName head name_list none))

/-- Embeds `Parser::funcname`. -/
def funcname : Nat → P (Option ASTNode)
  | 0 => fun _ => .diverged
  | fuel + 1 => do
    match ← name with
    | none => pure none
    | some nm => funcname_go fuel nm []

/-- Embeds `Parser::field`. -/
def field : Nat → P (Option ASTNode)
  | 0 => fun _ => .diverged
  | fuel + 1 => do
    if ← accept Token.LEFT_BRACKET then
      match ← exp fuel with
      | none => do report_expected_error "<exp>"; pure none
      | some exp1 => do
        expect Token.RIGHT_BRACKET
        expect Token.ASSIGN
        match ← exp fuel with
        | none => do report_expected_error "<exp>"; pure none
        | some exp2 => pure (some (.Field (.FieldA exp1 exp2)))
    else
      match ← name with
      | some nm => do
        expect Token.ASSIGN
        match ← exp fuel with
        | none => do report_expected_error "<exp>"; pure none
        | some e => pure (some (.Field (.FieldB nm e)))
      | none =>
        match ← exp fuel with
        | some e => pure (some (.Field e))
        | none => pure none

/-- Loop of `Parser::fieldlist`: `while let Some(fieldsep) = self.fieldsep()`,
then one more (necessarily failing) `fieldsep` read for the separator slot. -/
def fieldlist_loop : Nat → ASTNode → List (ASTNode × ASTNode) → P (Option ASTNode)
  | 0, _, _ => fun _ => .diverged
  | fuel + 1, head, fieldseps => do
    match ← fieldsep with
    | some fs =>
      match ← field fuel with
      | none => do report_expected_error "<field>"; pure none
      | some fld => fieldlist_loop fuel head (fieldseps ++ [(fs, fld)])
    | none => do
      let sep ← fieldsep
      pure (some (.FieldList head fieldseps sep))

/-- Embeds `Parser::fieldlist`. -/
def fieldlist : Nat → P (Option ASTNode)
  | 0 => fun _ => .diverged
  | fuel + 1 => do
    match ← field fuel with
    | none => pure none
    | some fld => fieldlist_loop fuel fld []

/-- Embeds `Parser::tableconstructor`. -/
def tableconstructor : Nat → P (Option ASTNode)
  | 0 => fun _ => .diverged
  | fuel + 1 => do
    if ← accept Token.LEFT_BRACE then do
      let field_list ← fieldlist fuel
      expect Token.RIGHT_BRACE
      pure (some (.TableConstructor field_list))
    else pure none

/-- Embeds `Parser::args`. -/
def args : Nat → P (Option ASTNode)
  | 0 => fun _ => .diverged
  | fuel + 1 => do
    if ← accept Token.LEFT_PAREN then do
      let exp_list ← explist1 fuel
      expect Token.RIGHT_PAREN
      pure (some (.Args (.ArgsParamList exp_list)))
    else
      match ← tableconstructor fuel with
      | some table_constructor => pure (some (.Args table_constructor))
      | none => do
        match ← getCurrent with
        | Token.STRING s => do
          advanceM
          pure (some (.Args (.Token (Token.STRING s))))
        | _ => pure none

/-- Embeds `Parser::functioncall`.  The second `prefixexp` block is kept even
though `prefixexp` can only fail by diverging (see `var`). -/
def functioncall : Nat → P (Option ASTNode)
  | 0 => fun _ => .diverged
  | fuel + 1 => do
    match ← prefixexp fuel with
    | some prefix_exp =>
      match ← args fuel with
      | none => do report_expected_error "<args>"; pure none
      | some a => pure (some (.FunctionCall (.PrefixExpressionArgs prefix_exp a)))
    | none =>
      match ← prefixexp fuel with
      | some prefix_exp => do
        expect Token.COLON
        match ← name with
        | none => do report_expected_error "<name>"; pure none
        | some nm =>
          match ← args fuel with
          | none => do report_expected_error "<args>"; pure none
          | some a =>
            pure (some (.FunctionCall (.PrefixExpressionNameArgs prefix_exp nm a)))
      | none => pure none

/-- Embeds `Parser::var`.  On a non-`NAME` token the `prefixexp` call recurses
back into `var` with the state unchanged — the infinite mutual recursion
behind claim C2. -/
def var : Nat → P (Option ASTNode)
  | 0 => fun _ => .diverged
  | fuel + 1 => do
    match ← name with
    | some tree => pure (some (.Variable tree))
    | none =>
      match ← prefixexp fuel with
      | none => pure none
      | some tree => do
        if ← accept Token.LEFT_BRACKET then
          match ← exp fuel with
          | none => do report_expected_error "<exp>"; pure none
          | some e => do
            expect Token.RIGHT_BRACKET
            pure (some (.Variable (.PrefixExpressionBracketsExpression tree e)))
        else if ← accept Token.DOT then
          match ← name with
          | none => do report_expected_error "<name>"; pure none
          | some nm => pure (some (.Variable (.PrefixExpressionDotName tree nm)))
        else pure none

/-- Embeds `Parser::prefixexp`. -/
def prefixexp : Nat → P (Option ASTNode)
  | 0 => fun _ => .diverged
  | fuel + 1 => do
    match ← var fuel with
    | some tree => pure (some (.PrefixExpression tree))
    | none =>
      match ← functioncall fuel with
      | some tree => pure (some (.PrefixExpression tree))
      | none => do
        if ← accept Token.LEFT_PAREN then
          match ← exp fuel with
          | none => do report_expected_error "<exp>"; pure none
          | some e => do
            expect Token.RIGHT_PAREN
            pure (some (.PrefixExpression e))
        else pure none

/-- Embeds `Parser::parlist1`. -/
def parlist1 : Nat → P (Option ASTNode)
  | 0 => fun _ => .diverged
  | fuel + 1 => do
    match ← namelist fuel with
    | some tree => do
      let variadic ←
        (do
          if ← accept Token.COMMA then do
            expect Token.DOTS
            pure true
          else pure false : P Bool)
      pure (some (.ParameterListA tree variadic))
    | none => do
      if ← accept Token.DOTS then
        pure (some (.ParameterListB (.Token Token.DOTS)))
      else pure none

/-- Embeds `Parser::funcbody`. -/
def funcbody : Nat → P (Option ASTNode)
  | 0 => fun _ => .diverged
  | fuel + 1 => do
    if ← accept Token.LEFT_PAREN then do
      let parameter_list ← parlist1 fuel
      expect Token.RIGHT_PAREN
      match ← block fuel with
      | none => do report_expected_error "<block>"; pure none
      | some blk => pure (some (.FunctionBody parameter_list blk))
    else pure none

/-- Embeds `Parser::function`. -/
def function : Nat → P (Option ASTNode)
  | 0 => fun _ => .diverged
  | fuel + 1 => do
    if ← accept Token.FUNCTION then
      match ← funcbody fuel with
      | none => do report_expected_error "<funcbody>"; pure none
      | some fb => pure (some (.Function fb))
    else pure none

/-- Embeds `Parser::exp_or`. -/
def exp_or : Nat → P (Option ASTNode)
  | 0 => fun _ => .diverged
  | fuel + 1 => do
    match ← exp_and fuel with
    | none => pure none
    | some tree => do
      if ← accept Token.OR then
        match ← exp_and fuel with
        | none => do report_expected_error "<exp>"; pure none
        | some e =>
          pure (some (.Expression (.BinaryOp tree (.Token Token.OR) e)))
      else pure (some tree)

/-- Embeds `Parser::exp_and`. -/
def exp_and : Nat → P (Option ASTNode)
  | 0 => fun _ => .diverged
  | fuel + 1 => do
    match ← exp_eqaulity fuel with
    | none => pure none
    | some tree => do
      if ← accept Token.AND then
        match ← exp_eqaulity fuel with
        | none => do report_expected_error "<exp>"; pure none
        | some e =>
          pure (some (.Expression (.BinaryOp tree (.Token Token.AND) e)))
      else pure (some tree)

/-- Embeds `Parser::exp_eqaulity` (source spelling). -/
def exp_eqaulity : Nat → P (Option ASTNode)
  | 0 => fun _ => .diverged
  | fuel + 1 => do
    match ← exp_concat fuel with
    | none => pure none
    | some tree => do
      let current_token ← getCurrent
      if ← orM (accept Token.GREATER_THAN) (orM (accept Token.LESS_THAN)
          (orM (accept Token.LESS_EQUAL) (orM (accept Token.GREATER_EQUAL)
          (orM (accept Token.NEQ) (accept Token.EQ))))) then
        match ← exp_concat fuel with
        | none => do report_expected_error "<exp>"; pure none
        | some e =>
          pure (some (.Expression (.BinaryOp tree (.Token current_token) e)))
      else pure (some tree)

/-- Embeds `Parser::exp_concat`.  The right-hand side recurses into `exp_term`,
one level up, so only a single `..` is consumed (the source carries the
comment "make this right associative in a second"). -/
def exp_concat : Nat → P (Option ASTNode)
  | 0 => fun _ => .diverged
  | fuel + 1 => do
    match ← exp_term fuel with
    | none => pure none
    | some tree => do
      if ← accept Token.CONCAT then
        match ← exp_term fuel with
        | none => do report_expected_error "<exp>"; pure none
        | some e =>
          pure (some (.Expression (.BinaryOp tree (.Token Token.CONCAT) e)))
      else pure (some tree)

/-- Embeds `Parser::exp_term`. -/
def exp_term : Nat → P (Option ASTNode)
  | 0 => fun _ => .diverged
  | fuel + 1 => do
    match ← exp_factor fuel with
    | none => pure none
    | some tree => do
      let current_token ← getCurrent
      if ← orM (accept Token.ADD) (accept Token.SUBTRACT) then
        match ← exp_factor fuel with
        | none => do report_expected_error "<exp>"; pure none
        | some e =>
          pure (some (.Expression (.BinaryOp tree (.Token current_token) e)))
      else pure (some tree)

/-- Embeds `Parser::exp_factor`. -/
def exp_factor : Nat → P (Option ASTNode)
  | 0 => fun _ => .diverged
  | fuel + 1 => do
    match ← exp_unary fuel with
    | none => pure none
    | some tree => do
      let current_token ← getCurrent
      if ← orM (accept Token.MULTIPLY) (orM (accept Token.DIVIDE) (accept Token.MODULO)) then
        match ← exp_unary fuel with
        | none => do report_expected_error "<exp>"; pure none
        | some e =>
          pure (some (.Expression (.BinaryOp tree (.Token current_token) e)))
      else pure (some tree)

/-- Embeds `Parser::exp_unary`. -/
def exp_unary : Nat → P (Option ASTNode)
  | 0 => fun _ => .diverged
  | fuel + 1 => do
    let current_token ← getCurrent
    if ← orM (accept Token.NOT) (orM (accept Token.HASHTAG) (accept Token.SUBTRACT)) then
      match ← exp_exponent fuel with
      | none => do report_expected_error "<exp>"; pure none
      | some e =>
        pure (some (.Expression (.UnaryOp (.Token current_token) e)))
    else
      match ← exp_exponent fuel with
      | some tree => pure (some tree)
      | none => pure none

/-- Embeds `Parser::exp_exponent`.  Like `exp_concat`, the right-hand side goes
one level up (`exp_primary`), so only a single `^` is consumed. -/
def exp_exponent : Nat → P (Option ASTNode)
  | 0 => fun _ => .diverged
  | fuel + 1 => do
    match ← exp_primary fuel with
    | none => pure none
    | some tree => do
      if ← accept Token.XOR then
        match ← exp_primary fuel with
        | none => do report_expected_error "<exp>"; pure none
        | some e =>
          pure (some (.Expression (.BinaryOp tree (.Token Token.XOR) e)))
      else pure (some tree)

/-- Embeds `Parser::exp_primary`. -/
def exp_primary : Nat → P (Option ASTNode)
  | 0 => fun _ => .diverged
  | fuel + 1 => do
    let current_token ← getCurrent
    let found_terminal :=
      match current_token with
      | Token.NUMBER _ | Token.STRING _ | Token.NAME _
      | Token.NIL | Token.FALSE | Token.TRUE | Token.DOTS => true
      | _ => false
    if found_terminal then do
      advanceM
      pure (some (.Expression (.Token current_token)))
    else if ← accept Token.LEFT_PAREN then
      match ← exp_or fuel with
      | none => do report_expected_error "<exp>"; pure none
      | some e => do
        expect Token.RIGHT_PAREN
        pure (some (.Expression e))
    else pure none

/-- Embeds `Parser::exp`. -/
def exp : Nat → P (Option ASTNode)
  | 0 => fun _ => .diverged
  | fuel + 1 => do
    match ← exp_or fuel with
    | some tree => pure (some (.Expression tree))
    | none =>
      match ← function fuel with
      | some tree => pure (some (.Expression tree))
      | none =>
        match ← tableconstructor fuel with
        | some tree => pure (some (.Expression tree))
        | none =>
          match ← prefixexp fuel with
          | some tree => pure (some (.Expression tree))
          | none => pure none

/-- Embeds `elseif` loop of the `if` branch of `Parser::stat`; `none` propagates
the early `return None` of the `?` operators in the loop body. -/
def stat_elseif_loop : Nat → List (ASTNode × ASTNode) → P (Option (List (ASTNode × ASTNode)))
  | 0, _ => fun _ => .diverged
  | fuel + 1, else_ifs => do
    if ← accept Token.ELSEIF then
      match ← exp fuel with
      | none => do report_expected_error "<exp>"; pure none
      | some e => do
        expect Token.THEN
        match ← block fuel with
        | none => do report_expected_error "<block>"; pure none
        | some blk => stat_elseif_loop fuel (else_ifs ++ [(e, blk)])
    else pure (some else_ifs)

/-- Embeds `Parser::stat`.  The source is a sequence of `if` blocks with early
returns; execution can fall out of the `for` block (both `for` forms
failed on their first step) and out of the `local` block, continuing
with the next checks — `stat_after_for` models that shared tail. -/
def stat : Nat → P (Option ASTNode)
  | 0 => fun _ => .diverged
  | fuel + 1 => do
    if ← accept Token.DO then
      match ← block fuel with
      | none => do report_expected_error "<block>"; pure none
      | some blk => do
        expect Token.END
        pure (some (.Statement (.Do blk)))
    else if ← accept Token.WHILE then
      match ← exp fuel with
      | none => do report_expected_error "<exp>"; pure none
      | some e => do
        expect Token.DO
        match ← block fuel with
        | none => do report_expected_error "<block>"; pure none
        | some blk => do
          expect Token.END
          pure (some (.Statement (.While e blk)))
    else if ← accept Token.REPEAT then
      match ← block fuel with
      | none => do report_expected_error "<block>"; pure none
      | some blk => do
        expect Token.UNTIL
        match ← exp fuel with
        | none => do report_expected_error "<exp>"; pure none
        | some e => do
          expect Token.END
          pure (some (.Statement (.Repeat blk e)))
    else if ← accept Token.IF then
      match ← exp fuel with
      | none => do report_expected_error "<exp>"; pure none
      | some e => do
        expect Token.THEN
        match ← block fuel with
        | none => do report_expected_error "<block>"; pure none
        | some blk => do
          match ← stat_elseif_loop fuel [] with
          | none => pure none
          | some else_ifs => do
            if ← accept Token.ELSE then
              match ← block fuel with
              | none => do report_expected_error "<block>"; pure none
              | some else_blk => do
                expect Token.END
                pure (some (.Statement (.If e blk else_ifs (some else_blk))))
            else do
              expect Token.END
              pure (some (.Statement (.If e blk else_ifs none)))
    else if ← accept Token.FOR then
      match ← name with
      | some nm => do
        -- numeric for
        expect Token.ASSIGN
        match ← exp fuel with
        | none => do report_expected_error "<exp>"; pure none
        | some e1 => do
          expect Token.COMMA
          match ← exp fuel with
          | none => do report_expected_error "<exp>"; pure none
          | some e2 => do
            let kont : Option ASTNode → P (Option ASTNode) := fun exp3 => do
              expect Token.DO
              match ← block fuel with
              | none => do report_expected_error "<block>"; pure none
              | some blk => do
                expect Token.END
                pure (some (.Statement (.ForNumeric nm e1 e2 exp3 blk)))
            if ← accept Token.COMMA then
              match ← exp fuel with
              | none => do report_expected_error "<exp>"; pure none
              | some e3 => kont (some e3)
            else kont none
      | none =>
        -- generic for
        match ← namelist fuel with
        | some name_list => do
          expect Token.IN
          match ← explist1 fuel with
          | none => do report_expected_error "<explist1>"; pure none
          | some exp_list => do
            expect Token.DO
            match ← block fuel with
            | none => do report_expected_error "<block>"; pure none
            | some blk => do
              expect Token.END
              pure (some (.Statement (.ForGeneric name_list exp_list blk)))
        | none => stat_after_for fuel   -- fall out of the `for` block
    else stat_after_for fuel

/-- Tail of `Parser::stat` after the `for` block: the `function` and
`local` blocks and the final `None`.  Note the `functioncall` and
`varlist = explist1` alternatives sit inside the `local` block in the
source. -/
def stat_after_for : Nat → P (Option ASTNode)
  | 0 => fun _ => .diverged
  | fuel + 1 => do
    if ← accept Token.FUNCTION then
      match ← funcname fuel with
      | none => do report_expected_error "<funcname>"; pure none
      | some func_name =>
        match ← funcbody fuel with
        | none => do report_expected_error "<funcbody>"; pure none
        | some func_body =>
          pure (some (.Statement (.FunctionStatement func_name func_body)))
    else if ← accept Token.LOCAL then
      if ← accept Token.FUNCTION then
        match ← name with
        | none => do report_expected_error "<name>"; pure none
        | some nm =>
          match ← funcbody fuel with
          | none => do report_expected_error "<funcbody>"; pure none
          | some func_body =>
            pure (some (.Statement (.LocalFunction nm func_body)))
      else
        match ← namelist fuel with
        | some name_list => do
          let exp_list ←
            (do
              if ← accept Token.ASSIGN then explist1 fuel
              else pure none : P (Option ASTNode))
          pure (some (.Statement (.LocalVariable name_list exp_list)))
        | none =>
          match ← functioncall fuel with
          | some function_call => pure (some (.Statement function_call))
          | none =>
            match ← varlist fuel with
            | some var_list => do
              expect Token.ASSIGN
              match ← explist1 fuel with
              | none => do report_expected_error "<explist1>"; pure none
              | some exp_list =>
                pure (some (.Statement (.LValueAssign var_list exp_list)))
            | none => pure none
    else pure none

/-- Embeds `Parser::laststat`. -/
def laststat : Nat → P (Option ASTNode)
  | 0 => fun _ => .diverged
  | fuel + 1 => do
    if ← accept Token.RETURN then do
      let expression_list ← explist1 fuel
      pure (some (.LastStatement
        (match expression_list with
         | some t => t
         | none => .Token Token.RETURN)))
    else if ← accept Token.BREAK then
      pure (some (.LastStatement (.Token Token.BREAK)))
    else pure none

/-- Embeds `Parser::block`. -/
def block : Nat → P (Option ASTNode)
  | 0 => fun _ => .diverged
  | fuel + 1 => do
    match ← chunk fuel with
    | some tree => pure (some (.Block tree))
    | none => pure none

/-- Statement loop of `Parser::chunk`: `while let Some(tree) = self.stat()`,
with an optional `;` after each statement. -/
def chunk_loop : Nat → List ASTNode → P (List ASTNode)
  | 0, _ => fun _ => .diverged
  | fuel + 1, statements => do
    match ← stat fuel with
    | none => pure statements
    | some tree => do
      let _ ← accept Token.SEMICOLON
      chunk_loop fuel (statements ++ [tree])

/-- Embeds `Parser::chunk`: it unconditionally returns `Some` (the empty-chunk
check in the source is commented out). -/
def chunk : Nat → P (Option ASTNode)
  | 0 => fun _ => .diverged
  | fuel + 1 => do
    let statements ← chunk_loop fuel []
    let last_statement ← laststat fuel
    pure (some (.Chunk statements last_statement))

end

/-- Embeds `Parser::parse`: run `chunk`, then return it only when the error
flag is still clear (the `println!` debug dump is ignored). -/
def parse (fuel : Nat) : P (Option ASTNode) :=
  fun st =>
    match chunk fuel st with
    | .diverged => .diverged
    | .out chunkR st' => .out (if st'.errored then none else chunkR) st'

/-- Frame property of a parser computation: on every normal return the
token vector is untouched and the cursor has not moved backwards. -/
def PSafe {α : Type} (m : P α) : Prop :=
  ∀ st a st', m st = .out a st' → st.tokens = st'.tokens ∧ st.cursor ≤ st'.cursor

/-- Cursor monotonicity alone: on every normal return the cursor has not
moved backwards. -/
def CursorMono {α : Type} (m : P α) : Prop :=
  ∀ st a st', m st = .out a st' → st.cursor ≤ st'.cursor

end Parser

/-- The lexer's `errored` flag is set exactly when at least one
diagnostic has been emitted. -/
def LexerErrorsConsistent (st : Lexer) : Prop :=
  st.errored = true ↔ st.errors ≠ []

/-- Abbreviation for stating expression-tree facts: a terminal wrapped
the way `exp_primary` wraps it. -/
def tokE (t : Token) : ASTNode :=
  .Expression (.Token t)

/-- Abbreviation: a binary node as built by the precedence cascade. -/
def binE (l : ASTNode) (t : Token) (r : ASTNode) : ASTNode :=
  .Expression (.BinaryOp l (.Token t) r)

/-- Abbreviation: a unary node as built by `exp_unary`. -/
def unE (t : Token) (r : ASTNode) : ASTNode :=
  .Expression (.UnaryOp (.Token t) r)

/-! ## Lexer frame lemmas -/

namespace Lexer

theorem inv_of_fields {a b : Lexer} (he : b.errored = a.errored) (hl : b.errors = a.errors) :
    LexerErrorsConsistent a → LexerErrorsConsistent b := by
  intro h
  unfold LexerErrorsConsistent at *
  rw [he, hl]
  exact h

theorem errorIsConsistent (st : Lexer) (e : LexError) :
    LexerErrorsConsistent { st with errored := true, errors := st.errors ++ [e] } := by
  unfold LexerErrorsConsistent
  simp

theorem advance_frame (st : Lexer) (oc : Option Char) (st' : Lexer)
    (h : advance st = .ok (oc, st')) :
    st'.tape = st.tape ∧ st'.errored = st.errored ∧ st'.errors = st.errors := by
  simp only [advance] at h
  split at h
  · cases h; exact ⟨rfl, rfl, rfl⟩
  · split at h
    · cases h; exact ⟨rfl, rfl, rfl⟩
    · cases h

theorem advance_nth_go_frame : ∀ (k : Nat) (st st' : Lexer),
    advance_nth.go k st = .ok st' →
    st'.tape = st.tape ∧ st'.errored = st.errored ∧ st'.errors = st.errors := by
  intro k
  induction k with
  | zero =>
    intro st st' h
    simp only [advance_nth.go] at h
    cases h
    exact ⟨rfl, rfl, rfl⟩
  | succ n ih =>
    intro st st' h
    simp only [advance_nth.go] at h
    cases ha : advance st with
    | error e => rw [ha] at h; cases h
    | ok p =>
      obtain ⟨oc, st1⟩ := p
      rw [ha] at h
      obtain ⟨h1, h2, h3⟩ := advance_frame st oc st1 ha
      obtain ⟨g1, g2, g3⟩ := ih st1 st' h
      exact ⟨g1.trans h1, g2.trans h2, g3.trans h3⟩

theorem advance_nth_frame (st : Lexer) (n : Int) (st' : Lexer)
    (h : advance_nth st n = .ok st') :
    st'.tape = st.tape ∧ st'.errored = st.errored ∧ st'.errors = st.errors :=
  advance_nth_go_frame n.toNat st st' h

theorem tokenizeStepTail_frame (c : Char) (st : Lexer) (tokens tokens' : List Token) (st' : Lexer)
    (h : tokenizeStepTail c st tokens = .ok (tokens', st')) :
    st'.tape = st.tape ∧ (LexerErrorsConsistent st → LexerErrorsConsistent st') := by
  unfold tokenizeStepTail at h
  split at h
  · -- identifier branch
    split at h
    · cases h
    · split at h
      · cases h
      · rename_i st1 ha
        cases h
        obtain ⟨f1, f2, f3⟩ := advance_nth_frame st _ _ ha
        exact ⟨f1, inv_of_fields f2 f3⟩
  · -- operator-table branch
    cases htk : single_char_token st c with
    | mk token skip_char =>
      rw [htk] at h
      dsimp only [] at h
      split at h
      · -- skip_char = true
        split at h
        · cases h
        · rename_i fst st2 ha
          cases h
          split at ha
          · obtain ⟨f1, f2, f3⟩ := advance_frame _ fst _ ha
            refine ⟨f1.trans rfl, fun _ => ?_⟩
            exact inv_of_fields f2 f3 (errorIsConsistent st _)
          · obtain ⟨f1, f2, f3⟩ := advance_frame _ fst _ ha
            exact ⟨f1, inv_of_fields f2 f3⟩
      · -- skip_char = false
        cases h
        split
        · exact ⟨rfl, fun _ => errorIsConsistent st _⟩
        · exact ⟨rfl, fun hi => hi⟩

theorem step_long_comment_frame (st : Lexer) (tokens tokens' : List Token) (st' : Lexer)
    (h : step_long_comment st tokens = .ok (tokens', st')) :
    st'.tape = st.tape ∧ (LexerErrorsConsistent st → LexerErrorsConsistent st') := by
  unfold step_long_comment at h
  split at h
  · cases h
  · split at h
    · cases h
    · rename_i st1 ha
      cases h
      obtain ⟨f1, f2, f3⟩ := advance_nth_frame st _ _ ha
      exact ⟨f1, inv_of_fields f2 f3⟩

theorem step_short_comment_frame (st : Lexer) (tokens tokens' : List Token) (st' : Lexer)
    (h : step_short_comment st tokens = .ok (tokens', st')) :
    st'.tape = st.tape ∧ (LexerErrorsConsistent st → LexerErrorsConsistent st') := by
  unfold step_short_comment at h
  split at h
  · cases h
  · split at h
    · cases h
    · rename_i st1 ha
      cases h
      obtain ⟨f1, f2, f3⟩ := advance_nth_frame st _ _ ha
      exact ⟨f1, inv_of_fields f2 f3⟩

theorem step_long_string_frame (st : Lexer) (tokens tokens' : List Token) (st' : Lexer)
    (h : step_long_string st tokens = .ok (tokens', st')) :
    st'.tape = st.tape ∧ (LexerErrorsConsistent st → LexerErrorsConsistent st') := by
  unfold step_long_string at h
  split at h
  · cases h
  · rename_i fst st1 ha0
    split at h
    · cases h
    · split at h
      · cases h
      · rename_i st2 ha
        cases h
        obtain ⟨g1, g2, g3⟩ := advance_frame st fst st1 ha0
        obtain ⟨f1, f2, f3⟩ := advance_nth_frame st1 _ _ ha
        exact ⟨f1.trans g1, inv_of_fields (f2.trans g2) (f3.trans g3)⟩

theorem step_short_string_frame (st : Lexer) (tokens tokens' : List Token) (st' : Lexer)
    (h : step_short_string st tokens = .ok (tokens', st')) :
    st'.tape = st.tape ∧ (LexerErrorsConsistent st → LexerErrorsConsistent st') := by
  unfold step_short_string at h
  split at h
  · cases h
  · split at h
    · cases h
    · rename_i x2 n0 stack hw x1 lastc hl
      by_cases hc : (st.is_end_of_file_nth (st.cursor + (n0 : Int)) || is_end_of_line lastc) = true
      · rw [if_pos hc] at h
        split at h
        · cases h
        · rename_i st2 ha
          cases h
          obtain ⟨f1, f2, f3⟩ := advance_nth_frame _ _ _ ha
          exact ⟨f1.trans rfl, fun _ => inv_of_fields f2 f3 (errorIsConsistent st _)⟩
      · rw [if_neg hc] at h
        split at h
        · cases h
        · rename_i st2 ha
          cases h
          obtain ⟨f1, f2, f3⟩ := advance_nth_frame st _ _ ha
          exact ⟨f1, inv_of_fields f2 f3⟩

theorem step_dots_frame (st : Lexer) (tokens tokens' : List Token) (st' : Lexer)
    (h : step_dots st tokens = .ok (tokens', st')) :
    st'.tape = st.tape ∧ (LexerErrorsConsistent st → LexerErrorsConsistent st') := by
  unfold step_dots at h
  split at h
  · split at h
    · cases h
    · rename_i st1 ha
      cases h
      obtain ⟨f1, f2, f3⟩ := advance_nth_frame st _ _ ha
      exact ⟨f1, inv_of_fields f2 f3⟩
  · split at h
    · cases h
    · rename_i fst st1 ha
      cases h
      obtain ⟨f1, f2, f3⟩ := advance_frame st fst _ ha
      exact ⟨f1, inv_of_fields f2 f3⟩

theorem step_hex_frame (st : Lexer) (tokens tokens' : List Token) (st' : Lexer)
    (h : step_hex st tokens = .ok (tokens', st')) :
    st'.tape = st.tape ∧ (LexerErrorsConsistent st → LexerErrorsConsistent st') := by
  unfold step_hex at h
  split at h
  · cases h
  · rename_i fst st1 ha0
    split at h
    · cases h
    · rename_i x n stack hw
      dsimp only [] at h
      obtain ⟨g1, g2, g3⟩ := advance_frame st fst st1 ha0
      cases hi : i64_from_str_radix16 stack.dropLast with
      | some v =>
        rw [hi] at h
        dsimp only [] at h
        split at h
        · cases h
        · rename_i st3 ha
          cases h
          obtain ⟨f1, f2, f3⟩ := advance_nth_frame st1 _ _ ha
          exact ⟨f1.trans g1, inv_of_fields (f2.trans g2) (f3.trans g3)⟩
      | none =>
        rw [hi] at h
        dsimp only [] at h
        split at h
        · cases h
        · rename_i st3 ha
          cases h
          obtain ⟨f1, f2, f3⟩ := advance_nth_frame _ _ _ ha
          refine ⟨(f1.trans rfl).trans g1, fun _ => ?_⟩
          exact inv_of_fields f2 f3 (errorIsConsistent st1 _)

theorem step_number_frame (c : Char) (st : Lexer) (tokens tokens' : List Token) (st' : Lexer)
    (h : step_number c st tokens = .ok (tokens', st')) :
    st'.tape = st.tape ∧ (LexerErrorsConsistent st → LexerErrorsConsistent st') := by
  unfold step_number at h
  split at h
  · cases h
  · rename_i x n stack hw
    dsimp only [] at h
    by_cases hn : (!((c == '-' || c == '.') &&
        (stack.dropLast.filter (fun ch => ch ≠ '_')).isEmpty)) = true
    · rw [if_pos hn] at h
      cases hp : rustParseF64 (c :: stack.dropLast.filter (fun ch => ch ≠ '_')) with
      | some v =>
        rw [hp] at h
        dsimp only [] at h
        split at h
        · cases h
        · rename_i st2 ha
          cases h
          obtain ⟨f1, f2, f3⟩ := advance_nth_frame st _ _ ha
          exact ⟨f1, inv_of_fields f2 f3⟩
      | none =>
        rw [hp] at h
        dsimp only [] at h
        split at h
        · cases h
        · rename_i st2 ha
          cases h
          obtain ⟨f1, f2, f3⟩ := advance_nth_frame _ _ _ ha
          refine ⟨f1.trans rfl, fun _ => ?_⟩
          exact inv_of_fields f2 f3 (errorIsConsistent st _)
    · rw [if_neg hn] at h
      exact tokenizeStepTail_frame c st tokens tokens' st' h

theorem tokenizeStep_frame (c : Char) (st : Lexer) (tokens tokens' : List Token) (st' : Lexer)
    (h : tokenizeStep c st tokens = .ok (tokens', st')) :
    st'.tape = st.tape ∧ (LexerErrorsConsistent st → LexerErrorsConsistent st') := by
  unfold tokenizeStep at h
  split at h
  · cases h; exact ⟨rfl, fun hi => hi⟩
  · split at h
    · cases h; exact ⟨rfl, fun hi => hi⟩
    · split at h
      · exact step_long_comment_frame st tokens tokens' st' h
      · split at h
        · exact step_short_comment_frame st tokens tokens' st' h
        · split at h
          · exact step_long_string_frame st tokens tokens' st' h
          · split at h
            · exact step_short_string_frame st tokens tokens' st' h
            · split at h
              · exact step_dots_frame st tokens tokens' st' h
              · split at h
                · exact step_hex_frame st tokens tokens' st' h
                · split at h
                  · exact step_number_frame c st tokens tokens' st' h
                  · exact tokenizeStepTail_frame c st tokens tokens' st' h


/-- The scanning loop preserves the tape and the errored/errors
consistency, at every fuel. -/
theorem tokenizeLoop_frame : ∀ (fuel : Nat) (st : Lexer) (tokens tokens' : List Token) (st' : Lexer),
    tokenizeLoop fuel st tokens = .ok (tokens', st') →
    st'.tape = st.tape ∧ (LexerErrorsConsistent st → LexerErrorsConsistent st') := by
  intro fuel
  induction fuel with
  | zero =>
    intro st tokens tokens' st' h
    simp only [tokenizeLoop] at h
    cases h
    exact ⟨rfl, fun hi => hi⟩
  | succ n ih =>
    intro st tokens tokens' st' h
    simp only [tokenizeLoop] at h
    cases ha : advance st with
    | error e => rw [ha] at h; cases h
    | ok p =>
      obtain ⟨oc, st1⟩ := p
      rw [ha] at h
      obtain ⟨g1, g2, g3⟩ := advance_frame st oc st1 ha
      cases oc with
      | none =>
        cases h
        exact ⟨g1, inv_of_fields g2 g3⟩
      | some c =>
        dsimp only [] at h
        cases hs : tokenizeStep c st1 tokens with
        | error e => rw [hs] at h; cases h
        | ok q =>
          obtain ⟨tokens2, st2⟩ := q
          rw [hs] at h
          obtain ⟨s1, s2⟩ := tokenizeStep_frame c st1 tokens tokens2 st2 hs
          obtain ⟨l1, l2⟩ := ih st2 tokens2 tokens' st' h
          refine ⟨l1.trans (s1.trans g1), fun hi => ?_⟩
          exact l2 (s2 (inv_of_fields g2 g3 hi))

/-- Embeds `tokenize` preserves the tape, preserves errored/errors consistency,
and returns `none` exactly when the error flag ends up set. -/
theorem tokenize_frame (st : Lexer) (r : Option (List Token)) (st' : Lexer)
    (h : tokenize st = .ok (r, st')) :
    st'.tape = st.tape ∧ (LexerErrorsConsistent st → LexerErrorsConsistent st') ∧
    (r = none ↔ st'.errored = true) := by
  unfold tokenize at h
  cases hl : tokenizeLoop (byteLen st.tape + 2) st [] with
  | error e => rw [hl] at h; cases h
  | ok p =>
    obtain ⟨tokens, st1⟩ := p
    rw [hl] at h
    cases h
    obtain ⟨f1, f2⟩ := tokenizeLoop_frame _ st [] tokens _ hl
    refine ⟨f1, f2, ?_⟩
    cases he : st'.errored with
    | false => simp [he]
    | true => simp [he]

end Lexer


/-! ## Parser frame lemmas -/

namespace Parser

theorem P_bind_apply {α β : Type} (m : P α) (k : α → P β) (st : Parser) :
    (m >>= k) st =
      match m st with
      | .out a st' => k a st'
      | .diverged => .diverged := rfl

theorem P_pure_apply {α : Type} (a : α) (st : Parser) :
    (pure a : P α) st = .out a st := rfl

theorem psafe_pure {α : Type} (a : α) : PSafe (pure a : P α) := by
  intro st b st' h
  rw [P_pure_apply] at h
  injection h with h1 h2
  subst h2
  exact ⟨rfl, Nat.le_refl _⟩

theorem psafe_diverged {α : Type} : PSafe (fun _ => (.diverged : PStep α)) := by
  intro st a st' h
  simp at h

theorem psafe_bind {α β : Type} {m : P α} {k : α → P β}
    (hm : PSafe m) (hk : ∀ a, PSafe (k a)) : PSafe (m >>= k) := by
  intro st b st' h
  rw [P_bind_apply] at h
  cases hms : m st with
  | diverged => rw [hms] at h; simp at h
  | out a st1 =>
    rw [hms] at h
    obtain ⟨ht1, hc1⟩ := hm st a st1 hms
    obtain ⟨ht2, hc2⟩ := hk a st1 b st' h
    exact ⟨ht1.trans ht2, hc1.trans hc2⟩

theorem psafe_accept (t : Token) : PSafe (accept t) := by
  intro st a st' h
  unfold accept at h
  split at h <;> (injection h with h1 h2; subst h2) <;>
    first
      | exact ⟨rfl, Nat.le_succ _⟩
      | exact ⟨rfl, Nat.le_refl _⟩

theorem psafe_getCurrent : PSafe getCurrent := by
  intro st a st' h
  unfold getCurrent at h
  injection h with h1 h2
  subst h2
  exact ⟨rfl, Nat.le_refl _⟩

theorem psafe_advanceM : PSafe advanceM := by
  intro st a st' h
  unfold advanceM at h
  injection h with h1 h2
  subst h2
  exact ⟨rfl, Nat.le_succ _⟩

theorem psafe_report (what : String) : PSafe (report_expected_error what) := by
  intro st a st' h
  unfold report_expected_error at h
  injection h with h1 h2
  subst h2
  exact ⟨rfl, Nat.le_refl _⟩

theorem psafe_expect (t : Token) : PSafe (expect t) := by
  unfold expect
  apply psafe_bind (psafe_accept t)
  intro b
  cases b
  · intro st a st' h
    injection h with h1 h2
    subst h2
    exact ⟨rfl, Nat.le_refl _⟩
  · exact psafe_pure ()

theorem psafe_name : PSafe name := by
  intro st a st' h
  unfold name at h
  split at h <;> (injection h with h1 h2; subst h2) <;>
    first
      | exact ⟨rfl, Nat.le_succ _⟩
      | exact ⟨rfl, Nat.le_refl _⟩

theorem psafe_fieldsep : PSafe fieldsep := by
  unfold fieldsep
  apply psafe_bind (psafe_accept _)
  intro b
  cases b
  · apply psafe_bind (psafe_accept _)
    intro b2
    cases b2 <;> exact psafe_pure _
  · exact psafe_pure _

theorem psafe_orM {a b : P Bool} (ha : PSafe a) (hb : PSafe b) : PSafe (orM a b) := by
  unfold orM
  apply psafe_bind ha
  intro x
  cases x
  · exact hb
  · exact psafe_pure _

/-- Every production of the parser preserves the token vector and never
moves the cursor backwards, at every fuel. -/
theorem productions_safe : ∀ fuel : Nat,
    (∀ acc, PSafe (explist1_loop fuel acc)) ∧
    PSafe (explist1 fuel) ∧
    (∀ hd acc, PSafe (namelist_loop fuel hd acc)) ∧
    PSafe (namelist fuel) ∧
    (∀ hd acc, PSafe (varlist_loop fuel hd acc)) ∧
    PSafe (varlist fuel) ∧
    (∀ hd acc, PSafe (funcname_go fuel hd acc)) ∧
    PSafe (funcname fuel) ∧
    PSafe (field fuel) ∧
    (∀ hd acc, PSafe (fieldlist_loop fuel hd acc)) ∧
    PSafe (fieldlist fuel) ∧
    PSafe (tableconstructor fuel) ∧
    PSafe (args fuel) ∧
    PSafe (functioncall fuel) ∧
    PSafe (var fuel) ∧
    PSafe (prefixexp fuel) ∧
    PSafe (parlist1 fuel) ∧
    PSafe (funcbody fuel) ∧
    PSafe (function fuel) ∧
    PSafe (exp_or fuel) ∧
    PSafe (exp_and fuel) ∧
    PSafe (exp_eqaulity fuel) ∧
    PSafe (exp_concat fuel) ∧
    PSafe (exp_term fuel) ∧
    PSafe (exp_factor fuel) ∧
    PSafe (exp_unary fuel) ∧
    PSafe (exp_exponent fuel) ∧
    PSafe (exp_primary fuel) ∧
    PSafe (exp fuel) ∧
    (∀ acc, PSafe (stat_elseif_loop fuel acc)) ∧
    PSafe (stat fuel) ∧
    PSafe (stat_after_for fuel) ∧
    PSafe (laststat fuel) ∧
    PSafe (block fuel) ∧
    (∀ acc, PSafe (chunk_loop fuel acc)) ∧
    PSafe (chunk fuel) := by
  intro fuel
  induction fuel with
  | zero =>
    exact ⟨fun _ => psafe_diverged, psafe_diverged,
      fun _ _ => psafe_diverged, psafe_diverged,
      fun _ _ => psafe_diverged, psafe_diverged,
      fun _ _ => psafe_diverged, psafe_diverged,
      psafe_diverged, fun _ _ => psafe_diverged,
      psafe_diverged, psafe_diverged, psafe_diverged, psafe_diverged,
      psafe_diverged, psafe_diverged, psafe_diverged, psafe_diverged,
      psafe_diverged, psafe_diverged, psafe_diverged, psafe_diverged,
      psafe_diverged, psafe_diverged, psafe_diverged, psafe_diverged,
      psafe_diverged, psafe_diverged, psafe_diverged,
      fun _ => psafe_diverged, psafe_diverged, psafe_diverged,
      psafe_diverged, psafe_diverged, fun _ => psafe_diverged, psafe_diverged⟩
  | succ n ih =>
    obtain ⟨ihExplist1Loop, ihExplist1, ihNamelistLoop, ihNamelist,
      ihVarlistLoop, ihVarlist, ihFuncnameGo, ihFuncname, ihField,
      ihFieldlistLoop, ihFieldlist, ihTable, ihArgs, ihFncall, ihVar,
      ihPrefixexp, ihParlist, ihFuncbody, ihFunction, ihExpOr, ihExpAnd,
      ihExpEq, ihExpConcat, ihExpTerm, ihExpFactor, ihExpUnary,
      ihExpExponent, ihExpPrimary, ihExp, ihStatElseif, ihStat,
      ihStatAfter, ihLaststat, ihBlock, ihChunkLoop, ihChunk⟩ := ih
    refine ⟨?_, ?_, ?_, ?_, ?_, ?_, ?_, ?_, ?_, ?_, ?_, ?_, ?_, ?_, ?_, ?_,
      ?_, ?_, ?_, ?_, ?_, ?_, ?_, ?_, ?_, ?_, ?_, ?_, ?_, ?_, ?_, ?_, ?_,
      ?_, ?_, ?_⟩
    -- explist1_loop
    · intro acc
      simp only [explist1_loop]
      apply psafe_bind ihExp
      intro x
      cases x
      · exact psafe_pure _
      · apply psafe_bind (psafe_accept _)
        intro b
        cases b
        · exact psafe_pure _
        · exact ihExplist1Loop _
    -- explist1
    · simp only [explist1]
      exact ihExplist1Loop []
    -- namelist_loop
    · intro hd acc
      simp only [namelist_loop]
      apply psafe_bind (psafe_accept _)
      intro b
      cases b
      · exact psafe_pure _
      · apply psafe_bind psafe_name
        intro x
        cases x
        · apply psafe_bind (psafe_report _); intro u; exact psafe_pure _
        · exact ihNamelistLoop _ _
    -- namelist
    · simp only [namelist]
      apply psafe_bind psafe_name
      intro x
      cases x
      · exact psafe_pure _
      · exact ihNamelistLoop _ _
    -- varlist_loop
    · intro hd acc
      simp only [varlist_loop]
      apply psafe_bind (psafe_accept _)
      intro b
      cases b
      · exact psafe_pure _
      · apply psafe_bind ihVar
        intro x
        cases x
        · apply psafe_bind (psafe_report _); intro u; exact psafe_pure _
        · exact ihVarlistLoop _ _
    -- varlist
    · simp only [varlist]
      apply psafe_bind ihVar
      intro x
      cases x
      · exact psafe_pure _
      · exact ihVarlistLoop _ _
    -- funcname_go
    · intro hd acc
      simp only [funcname_go]
      apply psafe_bind (psafe_accept _)
      intro b
      cases b
      · apply psafe_bind (psafe_accept _)
        intro b2
        cases b2
        · exact psafe_pure _
        · apply psafe_bind psafe_name
          intro x
          cases x
          · apply psafe_bind (psafe_report _); intro u; exact psafe_pure _
          · exact psafe_pure _
      · apply psafe_bind psafe_name
        intro x
        cases x
        · apply psafe_bind (psafe_report _); intro u; exact psafe_pure _
        · exact ihFuncnameGo _ _
    -- funcname
    · simp only [funcname]
      apply psafe_bind psafe_name
      intro x
      cases x
      · exact psafe_pure _
      · exact ihFuncnameGo _ _
    -- field
    · simp only [field]
      apply psafe_bind (psafe_accept _)
      intro b
      cases b
      · apply psafe_bind psafe_name
        intro x
        cases x
        · apply psafe_bind ihExp
          intro y
          cases y <;> exact psafe_pure _
        · apply psafe_bind (psafe_expect _)
          intro u
          apply psafe_bind ihExp
          intro y
          cases y
          · apply psafe_bind (psafe_report _); intro u2; exact psafe_pure _
          · exact psafe_pure _
      · apply psafe_bind ihExp
        intro x
        cases x
        · apply psafe_bind (psafe_report _); intro u; exact psafe_pure _
        · apply psafe_bind (psafe_expect _)
          intro u
          apply psafe_bind (psafe_expect _)
          intro u2
          apply psafe_bind ihExp
          intro y
          cases y
          · apply psafe_bind (psafe_report _); intro u3; exact psafe_pure _
          · exact psafe_pure _
    -- fieldlist_loop
    · intro hd acc
      simp only [fieldlist_loop]
      apply psafe_bind psafe_fieldsep
      intro x
      cases x
      · apply psafe_bind psafe_fieldsep
        intro sep
        exact psafe_pure _
      · apply psafe_bind ihField
        intro y
        cases y
        · apply psafe_bind (psafe_report _); intro u; exact psafe_pure _
        · exact ihFieldlistLoop _ _
    -- fieldlist
    · simp only [fieldlist]
      apply psafe_bind ihField
      intro x
      cases x
      · exact psafe_pure _
      · exact ihFieldlistLoop _ _
    -- tableconstructor
    · simp only [tableconstructor]
      apply psafe_bind (psafe_accept _)
      intro b
      cases b
      · exact psafe_pure _
      · apply psafe_bind ihFieldlist
        intro fl
        apply psafe_bind (psafe_expect _)
        intro u
        exact psafe_pure _
    -- args
    · simp only [args]
      apply psafe_bind (psafe_accept _)
      intro b
      cases b
      · apply psafe_bind ihTable
        intro x
        cases x
        · apply psafe_bind psafe_getCurrent
          intro tk
          cases tk <;>
            first
              | exact psafe_pure _
              | (apply psafe_bind psafe_advanceM; intro u; exact psafe_pure _)
        · exact psafe_pure _
      · apply psafe_bind ihExplist1
        intro el
        apply psafe_bind (psafe_expect _)
        intro u
        exact psafe_pure _
    -- functioncall
    · simp only [functioncall]
      apply psafe_bind ihPrefixexp
      intro x
      cases x
      · apply psafe_bind ihPrefixexp
        intro y
        cases y
        · exact psafe_pure _
        · apply psafe_bind (psafe_expect _)
          intro u
          apply psafe_bind psafe_name
          intro z
          cases z
          · apply psafe_bind (psafe_report _); intro u2; exact psafe_pure _
          · apply psafe_bind ihArgs
            intro w
            cases w
            · apply psafe_bind (psafe_report _); intro u2; exact psafe_pure _
            · exact psafe_pure _
      · apply psafe_bind ihArgs
        intro y
        cases y
        · apply psafe_bind (psafe_report _); intro u; exact psafe_pure _
        · exact psafe_pure _
    -- var
    · simp only [var]
      apply psafe_bind psafe_name
      intro x
      cases x
      · apply psafe_bind ihPrefixexp
        intro y
        cases y
        · exact psafe_pure _
        · apply psafe_bind (psafe_accept _)
          intro b
          cases b
          · apply psafe_bind (psafe_accept _)
            intro b2
            cases b2
            · exact psafe_pure _
            · apply psafe_bind psafe_name
              intro z
              cases z
              · apply psafe_bind (psafe_report _); intro u; exact psafe_pure _
              · exact psafe_pure _
          · apply psafe_bind ihExp
            intro z
            cases z
            · apply psafe_bind (psafe_report _); intro u; exact psafe_pure _
            · apply psafe_bind (psafe_expect _)
              intro u
              exact psafe_pure _
      · exact psafe_pure _
    -- prefixexp
    · simp only [prefixexp]
      apply psafe_bind ihVar
      intro x
      cases x
      · apply psafe_bind ihFncall
        intro y
        cases y
        · apply psafe_bind (psafe_accept _)
          intro b
          cases b
          · exact psafe_pure _
          · apply psafe_bind ihExp
            intro z
            cases z
            · apply psafe_bind (psafe_report _); intro u; exact psafe_pure _
            · apply psafe_bind (psafe_expect _)
              intro u
              exact psafe_pure _
        · exact psafe_pure _
      · exact psafe_pure _
    -- parlist1
    · simp only [parlist1]
      apply psafe_bind ihNamelist
      intro x
      cases x
      · apply psafe_bind (psafe_accept _)
        intro b
        cases b <;> exact psafe_pure _
      · apply psafe_bind ?_
        · intro variadic
          exact psafe_pure _
        · apply psafe_bind (psafe_accept _)
          intro b
          cases b
          · exact psafe_pure _
          · apply psafe_bind (psafe_expect _)
            intro u
            exact psafe_pure _
    -- funcbody
    · simp only [funcbody]
      apply psafe_bind (psafe_accept _)
      intro b
      cases b
      · exact psafe_pure _
      · apply psafe_bind ihParlist
        intro pl
        apply psafe_bind (psafe_expect _)
        intro u
        apply psafe_bind ihBlock
        intro x
        cases x
        · apply psafe_bind (psafe_report _); intro u2; exact psafe_pure _
        · exact psafe_pure _
    -- function
    · simp only [function]
      apply psafe_bind (psafe_accept _)
      intro b
      cases b
      · exact psafe_pure _
      · apply psafe_bind ihFuncbody
        intro x
        cases x
        · apply psafe_bind (psafe_report _); intro u; exact psafe_pure _
        · exact psafe_pure _
    -- exp_or
    · simp only [exp_or]
      apply psafe_bind ihExpAnd
      intro x
      cases x
      · exact psafe_pure _
      · apply psafe_bind (psafe_accept _)
        intro b
        cases b
        · exact psafe_pure _
        · apply psafe_bind ihExpAnd
          intro y
          cases y
          · apply psafe_bind (psafe_report _); intro u; exact psafe_pure _
          · exact psafe_pure _
    -- exp_and
    · simp only [exp_and]
      apply psafe_bind ihExpEq
      intro x
      cases x
      · exact psafe_pure _
      · apply psafe_bind (psafe_accept _)
        intro b
        cases b
        · exact psafe_pure _
        · apply psafe_bind ihExpEq
          intro y
          cases y
          · apply psafe_bind (psafe_report _); intro u; exact psafe_pure _
          · exact psafe_pure _
    -- exp_eqaulity
    · simp only [exp_eqaulity]
      apply psafe_bind ihExpConcat
      intro x
      cases x
      · exact psafe_pure _
      · apply psafe_bind psafe_getCurrent
        intro ct
        apply psafe_bind (psafe_orM (psafe_accept _) (psafe_orM (psafe_accept _)
          (psafe_orM (psafe_accept _) (psafe_orM (psafe_accept _)
          (psafe_orM (psafe_accept _) (psafe_accept _))))))
        intro b
        cases b
        · exact psafe_pure _
        · apply psafe_bind ihExpConcat
          intro y
          cases y
          · apply psafe_bind (psafe_report _); intro u; exact psafe_pure _
          · exact psafe_pure _
    -- exp_concat
    · simp only [exp_concat]
      apply psafe_bind ihExpTerm
      intro x
      cases x
      · exact psafe_pure _
      · apply psafe_bind (psafe_accept _)
        intro b
        cases b
        · exact psafe_pure _
        · apply psafe_bind ihExpTerm
          intro y
          cases y
          · apply psafe_bind (psafe_report _); intro u; exact psafe_pure _
          · exact psafe_pure _
    -- exp_term
    · simp only [exp_term]
      apply psafe_bind ihExpFactor
      intro x
      cases x
      · exact psafe_pure _
      · apply psafe_bind psafe_getCurrent
        intro ct
        apply psafe_bind (psafe_orM (psafe_accept _) (psafe_accept _))
        intro b
        cases b
        · exact psafe_pure _
        · apply psafe_bind ihExpFactor
          intro y
          cases y
          · apply psafe_bind (psafe_report _); intro u; exact psafe_pure _
          · exact psafe_pure _
    -- exp_factor
    · simp only [exp_factor]
      apply psafe_bind ihExpUnary
      intro x
      cases x
      · exact psafe_pure _
      · apply psafe_bind psafe_getCurrent
        intro ct
        apply psafe_bind (psafe_orM (psafe_accept _)
          (psafe_orM (psafe_accept _) (psafe_accept _)))
        intro b
        cases b
        · exact psafe_pure _
        · apply psafe_bind ihExpUnary
          intro y
          cases y
          · apply psafe_bind (psafe_report _); intro u; exact psafe_pure _
          · exact psafe_pure _
    -- exp_unary
    · simp only [exp_unary]
      apply psafe_bind psafe_getCurrent
      intro ct
      apply psafe_bind (psafe_orM (psafe_accept _)
        (psafe_orM (psafe_accept _) (psafe_accept _)))
      intro b
      cases b
      · apply psafe_bind ihExpExponent
        intro x
        cases x <;> exact psafe_pure _
      · apply psafe_bind ihExpExponent
        intro x
        cases x
        · apply psafe_bind (psafe_report _); intro u; exact psafe_pure _
        · exact psafe_pure _
    -- exp_exponent
    · simp only [exp_exponent]
      apply psafe_bind ihExpPrimary
      intro x
      cases x
      · exact psafe_pure _
      · apply psafe_bind (psafe_accept _)
        intro b
        cases b
        · exact psafe_pure _
        · apply psafe_bind ihExpPrimary
          intro y
          cases y
          · apply psafe_bind (psafe_report _); intro u; exact psafe_pure _
          · exact psafe_pure _
    -- exp_primary
    · simp only [exp_primary]
      apply psafe_bind psafe_getCurrent
      intro tk
      split
      · apply psafe_bind psafe_advanceM
        intro u
        exact psafe_pure _
      · apply psafe_bind (psafe_accept _)
        intro b
        cases b
        · exact psafe_pure _
        · apply psafe_bind ihExpOr
          intro x
          cases x
          · apply psafe_bind (psafe_report _); intro u; exact psafe_pure _
          · apply psafe_bind (psafe_expect _)
            intro u
            exact psafe_pure _
    -- exp
    · simp only [exp]
      apply psafe_bind ihExpOr
      intro x
      cases x
      · apply psafe_bind ihFunction
        intro y
        cases y
        · apply psafe_bind ihTable
          intro z
          cases z
          · apply psafe_bind ihPrefixexp
            intro w
            cases w <;> exact psafe_pure _
          · exact psafe_pure _
        · exact psafe_pure _
      · exact psafe_pure _
    -- stat_elseif_loop
    · intro acc
      simp only [stat_elseif_loop]
      apply psafe_bind (psafe_accept _)
      intro b
      cases b
      · exact psafe_pure _
      · apply psafe_bind ihExp
        intro x
        cases x
        · apply psafe_bind (psafe_report _); intro u; exact psafe_pure _
        · apply psafe_bind (psafe_expect _)
          intro u
          apply psafe_bind ihBlock
          intro y
          cases y
          · apply psafe_bind (psafe_report _); intro u2; exact psafe_pure _
          · exact ihStatElseif _
    -- stat
    · simp only [stat]
      apply psafe_bind (psafe_accept _)
      intro b
      cases b
      · apply psafe_bind (psafe_accept _)
        intro b
        cases b
        · apply psafe_bind (psafe_accept _)
          intro b
          cases b
          · apply psafe_bind (psafe_accept _)
            intro b
            cases b
            · apply psafe_bind (psafe_accept _)
              intro b
              cases b
              · exact ihStatAfter
              · apply psafe_bind psafe_name
                intro x
                cases x with
                | none =>
                  apply psafe_bind ihNamelist
                  intro y
                  cases y with
                  | none => exact ihStatAfter
                  | some nl =>
                    apply psafe_bind (psafe_expect _); intro u
                    apply psafe_bind ihExplist1
                    intro z
                    cases z with
                    | none =>
                      apply psafe_bind (psafe_report _); intro u2; exact psafe_pure _
                    | some el =>
                      apply psafe_bind (psafe_expect _); intro u2
                      apply psafe_bind ihBlock
                      intro w
                      cases w with
                      | none =>
                        apply psafe_bind (psafe_report _); intro u3; exact psafe_pure _
                      | some blk =>
                        apply psafe_bind (psafe_expect _); intro u3
                        exact psafe_pure _
                | some nm =>
                  apply psafe_bind (psafe_expect _); intro u
                  apply psafe_bind ihExp
                  intro z
                  cases z with
                  | none => apply psafe_bind (psafe_report _); intro u2; exact psafe_pure _
                  | some e1 =>
                    apply psafe_bind (psafe_expect _); intro u2
                    apply psafe_bind ihExp
                    intro z2
                    cases z2 with
                    | none =>
                      apply psafe_bind (psafe_report _); intro u3; exact psafe_pure _
                    | some e2 =>
                      apply psafe_bind (psafe_accept _)
                      intro b3
                      cases b3
                      · apply psafe_bind (psafe_expect _); intro u3
                        apply psafe_bind ihBlock
                        intro w
                        cases w with
                        | none =>
                          apply psafe_bind (psafe_report _); intro u4; exact psafe_pure _
                        | some blk =>
                          apply psafe_bind (psafe_expect _); intro u4
                          exact psafe_pure _
                      · apply psafe_bind ihExp
                        intro z3
                        cases z3 with
                        | none =>
                          apply psafe_bind (psafe_report _); intro u3; exact psafe_pure _
                        | some e3 =>
                          apply psafe_bind (psafe_expect _); intro u3
                          apply psafe_bind ihBlock
                          intro w
                          cases w with
                          | none =>
                            apply psafe_bind (psafe_report _); intro u4; exact psafe_pure _
                          | some blk =>
                            apply psafe_bind (psafe_expect _); intro u4
                            exact psafe_pure _
            · apply psafe_bind ihExp
              intro x
              cases x with
              | none => apply psafe_bind (psafe_report _); intro u; exact psafe_pure _
              | some e =>
                apply psafe_bind (psafe_expect _); intro u
                apply psafe_bind ihBlock
                intro y
                cases y with
                | none => apply psafe_bind (psafe_report _); intro u2; exact psafe_pure _
                | some blk =>
                  apply psafe_bind (ihStatElseif _)
                  intro z
                  cases z with
                  | none => exact psafe_pure _
                  | some else_ifs =>
                    apply psafe_bind (psafe_accept _)
                    intro b2
                    cases b2
                    · apply psafe_bind (psafe_expect _); intro u2
                      exact psafe_pure _
                    · apply psafe_bind ihBlock
                      intro w
                      cases w with
                      | none =>
                        apply psafe_bind (psafe_report _); intro u2; exact psafe_pure _
                      | some eb =>
                        apply psafe_bind (psafe_expect _); intro u2
                        exact psafe_pure _
          · apply psafe_bind ihBlock
            intro x
            cases x with
            | none => apply psafe_bind (psafe_report _); intro u; exact psafe_pure _
            | some blk =>
              apply psafe_bind (psafe_expect _); intro u
              apply psafe_bind ihExp
              intro y
              cases y with
              | none => apply psafe_bind (psafe_report _); intro u2; exact psafe_pure _
              | some e =>
                apply psafe_bind (psafe_expect _); intro u2
                exact psafe_pure _
        · apply psafe_bind ihExp
          intro x
          cases x with
          | none => apply psafe_bind (psafe_report _); intro u; exact psafe_pure _
          | some e =>
            apply psafe_bind (psafe_expect _); intro u
            apply psafe_bind ihBlock
            intro y
            cases y with
            | none => apply psafe_bind (psafe_report _); intro u2; exact psafe_pure _
            | some blk =>
              apply psafe_bind (psafe_expect _); intro u2
              exact psafe_pure _
      · apply psafe_bind ihBlock
        intro x
        cases x with
        | none => apply psafe_bind (psafe_report _); intro u; exact psafe_pure _
        | some blk =>
          apply psafe_bind (psafe_expect _); intro u
          exact psafe_pure _
    -- stat_after_for
    · simp only [stat_after_for]
      apply psafe_bind (psafe_accept _)
      intro b
      cases b
      · apply psafe_bind (psafe_accept _)
        intro b2
        cases b2
        · exact psafe_pure _
        · apply psafe_bind (psafe_accept _)
          intro b3
          cases b3
          · apply psafe_bind ihNamelist
            intro x
            cases x with
            | none =>
              apply psafe_bind ihFncall
              intro y
              cases y with
              | some fc => exact psafe_pure _
              | none =>
                apply psafe_bind ihVarlist
                intro z
                cases z with
                | none => exact psafe_pure _
                | some vl =>
                  apply psafe_bind (psafe_expect _); intro u
                  apply psafe_bind ihExplist1
                  intro w
                  cases w with
                  | none => apply psafe_bind (psafe_report _); intro u2; exact psafe_pure _
                  | some el => exact psafe_pure _
            | some nl =>
              apply psafe_bind ?_
              · intro el
                exact psafe_pure _
              · apply psafe_bind (psafe_accept _)
                intro b4
                cases b4
                · exact psafe_pure _
                · exact ihExplist1
          · apply psafe_bind psafe_name
            intro x
            cases x with
            | none => apply psafe_bind (psafe_report _); intro u; exact psafe_pure _
            | some nm =>
              apply psafe_bind ihFuncbody
              intro y
              cases y with
              | none => apply psafe_bind (psafe_report _); intro u; exact psafe_pure _
              | some fb => exact psafe_pure _
      · apply psafe_bind ihFuncname
        intro x
        cases x with
        | none => apply psafe_bind (psafe_report _); intro u; exact psafe_pure _
        | some fn =>
          apply psafe_bind ihFuncbody
          intro y
          cases y with
          | none => apply psafe_bind (psafe_report _); intro u; exact psafe_pure _
          | some fb => exact psafe_pure _
    -- laststat
    · simp only [laststat]
      apply psafe_bind (psafe_accept _)
      intro b
      cases b
      · apply psafe_bind (psafe_accept _)
        intro b2
        cases b2 <;> exact psafe_pure _
      · apply psafe_bind ihExplist1
        intro el
        exact psafe_pure _
    -- block
    · simp only [block]
      apply psafe_bind ihChunk
      intro x
      cases x <;> exact psafe_pure _
    -- chunk_loop
    · intro acc
      simp only [chunk_loop]
      apply psafe_bind ihStat
      intro x
      cases x
      · exact psafe_pure _
      · apply psafe_bind (psafe_accept _)
        intro u
        exact ihChunkLoop _
    -- chunk
    · simp only [chunk]
      apply psafe_bind (ihChunkLoop [])
      intro sts
      apply psafe_bind ihLaststat
      intro ls
      exact psafe_pure _

/-- The `chunk` component of `productions_safe`. -/
theorem psafe_chunk (fuel : Nat) : PSafe (chunk fuel) := by
  obtain ⟨-, -, -, -, -, -, -, -, -, -, -, -, -, -, -, -, -, -, -, -, -, -,
    -, -, -, -, -, -, -, -, -, -, -, -, -, hchunk⟩ := productions_safe fuel
  exact hchunk

/-- Embeds `Parser::parse` also preserves the token vector and cursor order. -/
theorem psafe_parse (fuel : Nat) : PSafe (parse fuel) := by
  intro st a st' h
  unfold parse at h
  cases hc : chunk fuel st with
  | diverged => rw [hc] at h; simp at h
  | out cr st1 =>
    rw [hc] at h
    cases h
    exact psafe_chunk fuel st cr _ hc


/-- On a state whose current token is not a `NAME`, `var` and `prefixexp`
call each other back with the state unchanged; no amount of fuel ever
yields a result — the Rust mutual recursion never terminates there. -/
theorem var_prefixexp_diverge (st : Parser) (h : name st = .out none st) :
    ∀ fuel, var fuel st = .diverged ∧ prefixexp fuel st = .diverged := by
  intro fuel
  induction fuel with
  | zero => exact ⟨rfl, rfl⟩
  | succ k ih =>
    refine ⟨?_, ?_⟩
    · simp only [var, P_bind_apply, h, ih.2]
    · simp only [prefixexp, P_bind_apply, ih.1]

/-- Embeds `chunk` never returns `None`: every normal return carries a tree
(the empty-chunk check of the source is commented out). -/
theorem chunk_out_isSome (fuel : Nat) (st : Parser) (r : Option ASTNode) (st' : Parser)
    (h : chunk fuel st = .out r st') : r.isSome = true := by
  cases fuel with
  | zero =>
    simp only [chunk] at h
    exact PStep.noConfusion h
  | succ k =>
    simp only [chunk, P_bind_apply] at h
    cases h1 : chunk_loop k [] st with
    | diverged => rw [h1] at h; simp at h
    | out sts st1 =>
      rw [h1] at h
      dsimp only [] at h
      cases h2 : laststat k st1 with
      | diverged => rw [h2] at h; simp at h
      | out ls st2 =>
        rw [h2] at h
        simp only [P_pure_apply] at h
        injection h with hv hs
        rw [← hv]
        rfl

end Parser

/-! ## Claims -/

/-- Claim C1 (code_bug evidence): lexing `"x = 1 + 2 * 3"` yields exactly
the token sequence of the claim, but `Parser::parse` on that sequence
returns a chunk with an **empty** statement list, consumes no token, and
records no diagnostic — the `varlist = explist` assignment production is
unreachable at the top level because the source nests it inside the
`local` branch of `stat`. -/
theorem c1_top_level_assignment_not_parsed :
    Lexer.tokenize (Lexer.new "x = 1 + 2 * 3".data) =
      .ok (some [Token.NAME "x", Token.ASSIGN, Token.NUMBER ⟨1, 1⟩, Token.ADD,
                 Token.NUMBER ⟨2, 1⟩, Token.MULTIPLY, Token.NUMBER ⟨3, 1⟩],
        { tape := "x = 1 + 2 * 3".data, cursor := 13, line := 1,
          errored := false, column := 14, errors := [] }) ∧
    Parser.parse 64 (Parser.new [Token.NAME "x", Token.ASSIGN, Token.NUMBER ⟨1, 1⟩,
        Token.ADD, Token.NUMBER ⟨2, 1⟩, Token.MULTIPLY, Token.NUMBER ⟨3, 1⟩]) =
      .out (some (ASTNode.Chunk [] none))
        (Parser.new [Token.NAME "x", Token.ASSIGN, Token.NUMBER ⟨1, 1⟩,
          Token.ADD, Token.NUMBER ⟨2, 1⟩, Token.MULTIPLY, Token.NUMBER ⟨3, 1⟩]) :=
  ⟨rfl, rfl⟩

/-- Claim C2 (code_bug evidence): `Lexer::tokenize` panics (instead of
returning) on the one-character input `"` — the `last().unwrap()` on the
empty peek stack — and `Parser::var` on a state whose current token is
not a `NAME` (here `do`) recurses through `prefixexp` forever: no fuel
returns, which in the Rust source is an unbounded mutual recursion. -/
theorem c2_lexer_panic_and_parser_divergence :
    Lexer.tokenize (Lexer.new ['"']) = .error RustPanic.unwrapNone ∧
    ∀ fuel, Parser.var fuel (Parser.new [Token.DO]) = .diverged :=
  ⟨rfl, fun fuel => (Parser.var_prefixexp_diverge (Parser.new [Token.DO]) rfl fuel).1⟩

/-- Claim C3 is false as stated: on the single token `end` — not a
derivation of the grammar — `parse` returns a tree, records no
diagnostic, and consumes nothing (the final state is the initial one,
cursor still `0`). -/
theorem c3_lone_end_accepted_counterexample :
    Parser.parse 64 (Parser.new [Token.END]) =
      .out (some (ASTNode.Chunk [] none)) (Parser.new [Token.END]) :=
  rfl

/-- Claim C3 (amended): whenever `parse` returns, it returns a tree iff
the error flag is still clear; it never checks that the token stream was
consumed, so leftover tokens that cannot start a statement are silently
ignored. -/
theorem c3_tree_iff_no_diagnostic (fuel : Nat) (st : Parser) (r : Option ASTNode)
    (st' : Parser) (h : Parser.parse fuel st = .out r st') :
    r.isSome = true ↔ st'.errored = false := by
  unfold Parser.parse at h
  cases hc : Parser.chunk fuel st with
  | diverged => rw [hc] at h; simp at h
  | out cr st1 =>
    rw [hc] at h
    cases h
    have hs := Parser.chunk_out_isSome fuel st cr _ hc
    cases he : st'.errored with
    | false => simpa [he] using hs
    | true => simp [he]

/-- Witness for C3's amended theorem at the concrete input `[end]`. -/
theorem c3_tree_iff_no_diagnostic_witness :
    (some (ASTNode.Chunk [] none) : Option ASTNode).isSome = true ↔
      (Parser.new [Token.END]).errored = false :=
  c3_tree_iff_no_diagnostic 64 (Parser.new [Token.END])
    (some (ASTNode.Chunk [] none)) (Parser.new [Token.END]) rfl

/-- Claim C4 (code_bug evidence): three of the four claimed shapes hold —
`a or b and c`, `-a^b` and `a + b * c` parse to exactly the claimed
trees, consuming all tokens — but `a .. b .. c` is **not** parsed
right-associatively: `exp_concat` recurses into `exp_term` on the right,
so the expression parser stops after `a .. b` with the cursor at `3`,
leaving `.. c` unconsumed. -/
theorem c4_precedence_shapes :
    (Parser.exp 64 (Parser.new [Token.NAME "a", Token.OR, Token.NAME "b",
        Token.AND, Token.NAME "c"]) =
      .out (some (ASTNode.Expression (binE (tokE (Token.NAME "a")) Token.OR
          (binE (tokE (Token.NAME "b")) Token.AND (tokE (Token.NAME "c"))))))
        { tokens := [Token.NAME "a", Token.OR, Token.NAME "b", Token.AND, Token.NAME "c"],
          cursor := 5, errored := false, errors := [] }) ∧
    (Parser.exp 64 (Parser.new [Token.SUBTRACT, Token.NAME "a", Token.XOR,
        Token.NAME "b"]) =
      .out (some (ASTNode.Expression (unE Token.SUBTRACT
          (binE (tokE (Token.NAME "a")) Token.XOR (tokE (Token.NAME "b"))))))
        { tokens := [Token.SUBTRACT, Token.NAME "a", Token.XOR, Token.NAME "b"],
          cursor := 4, errored := false, errors := [] }) ∧
    (Parser.exp 64 (Parser.new [Token.NAME "a", Token.ADD, Token.NAME "b",
        Token.MULTIPLY, Token.NAME "c"]) =
      .out (some (ASTNode.Expression (binE (tokE (Token.NAME "a")) Token.ADD
          (binE (tokE (Token.NAME "b")) Token.MULTIPLY (tokE (Token.NAME "c"))))))
        { tokens := [Token.NAME "a", Token.ADD, Token.NAME "b", Token.MULTIPLY, Token.NAME "c"],
          cursor := 5, errored := false, errors := [] }) ∧
    (Parser.exp 64 (Parser.new [Token.NAME "a", Token.CONCAT, Token.NAME "b",
        Token.CONCAT, Token.NAME "c"]) =
      .out (some (ASTNode.Expression (binE (tokE (Token.NAME "a")) Token.CONCAT
          (tokE (Token.NAME "b")))))
        { tokens := [Token.NAME "a", Token.CONCAT, Token.NAME "b", Token.CONCAT, Token.NAME "c"],
          cursor := 3, errored := false, errors := [] }) :=
  ⟨rfl, rfl, rfl, rfl⟩

/-- Claim C5 (code_bug evidence): on `repeat until true` — a complete
repeat statement with an empty block — the parser demands a further
`end` after the until-expression (`expect(Token::END)` in the repeat
branch of `stat`), records the diagnostic `expected END, found
UNDEFINED`, and `parse` returns no tree. -/
theorem c5_repeat_requires_end :
    Parser.parse 64 (Parser.new [Token.REPEAT, Token.UNTIL, Token.TRUE]) =
      .out none
        { tokens := [Token.REPEAT, Token.UNTIL, Token.TRUE], cursor := 3,
          errored := true,
          errors := [ParseError.expectedSymbol Token.END Token.UNDEFINED] } :=
  rfl

/-- Claim C6 (code_bug evidence): on the input `"'"` — a double-quoted
short string whose body is one single-quote — the lexer panics on a
`usize` underflow in the line-continuation check instead of emitting
`STRING("'")`; and where no panic occurs (opening quote at byte offset
two or more), the scan still stops at the single quote because the
`while_peek` filter rejects **either** kind of quote: ` "a'x` lexes to
`STRING("a")` followed by `NAME("x")`, with the `'` silently consumed. -/
theorem c6_short_string_quote_handling :
    Lexer.tokenize (Lexer.new ['"', Char.ofNat 39, '"']) =
      .error RustPanic.usizeUnderflow ∧
    Lexer.tokenize (Lexer.new [' ', '"', 'a', Char.ofNat 39, 'x']) =
      .ok (some [Token.STRING "a", Token.NAME "x"],
        { tape := [' ', '"', 'a', Char.ofNat 39, 'x'], cursor := 5, line := 1,
          errored := false, column := 6, errors := [] }) :=
  ⟨rfl, rfl⟩

/-- Claim C7 is false as stated: on the input `"a` the lexer records no
lexical error yet never returns the token vector — it panics on the
`usize` underflow in the short-string closure. -/
theorem c7_panic_counterexample :
    Lexer.tokenize (Lexer.new ['"', 'a']) = .error RustPanic.usizeUnderflow ∧
    ∀ r st', Lexer.tokenize (Lexer.new ['"', 'a']) ≠ .ok (r, st') := by
  refine ⟨rfl, fun r st' hc => ?_⟩
  rw [show Lexer.tokenize (Lexer.new ['"', 'a']) = .error RustPanic.usizeUnderflow from rfl] at hc
  exact Except.noConfusion hc

/-- Claim C7 (amended): whenever `tokenize` returns normally, it returns
no token vector iff the error flag was set, iff at least one diagnostic
was recorded; some inputs make it panic instead of returning. -/
theorem c7_failure_iff_error_recorded (cs : List Char) (r : Option (List Token))
    (st' : Lexer) (h : Lexer.tokenize (Lexer.new cs) = .ok (r, st')) :
    (r = none ↔ st'.errored = true) ∧ (r = none ↔ st'.errors ≠ []) := by
  obtain ⟨-, f2, f3⟩ := Lexer.tokenize_frame _ _ _ h
  have hinv : LexerErrorsConsistent st' := by
    apply f2
    unfold LexerErrorsConsistent Lexer.new
    simp
  exact ⟨f3, f3.trans hinv⟩

/-- Witness for C7's amended theorem at the concrete input `"x"`. -/
theorem c7_failure_iff_error_recorded_witness :
    ((some [Token.NAME "x"] : Option (List Token)) = none ↔
      ({ tape := ['x'], cursor := 1, line := 1, errored := false, column := 2,
         errors := [] } : Lexer).errored = true) ∧
    ((some [Token.NAME "x"] : Option (List Token)) = none ↔
      ({ tape := ['x'], cursor := 1, line := 1, errored := false, column := 2,
         errors := [] } : Lexer).errors ≠ []) :=
  c7_failure_iff_error_recorded ['x'] (some [Token.NAME "x"])
    { tape := ['x'], cursor := 1, line := 1, errored := false, column := 2,
      errors := [] } rfl

/-- Claim C8 (code_bug evidence): on `1.2.3` the lexer does record an
error and substitute `0` as claimed (shown at the loop level, where the
substituted token is visible, and at `tokenize` level, which then drops
the vector); but on `1.2.` — also a numeral with two dots — the
`remove_last` applied after `while_peek` hits the end of input drops the
final character, `1.2` parses cleanly, and the lexer emits
`NUMBER(1.2)` (the fraction `12/10`) with **no** error. -/
theorem c8_multi_dot_numeral :
    (Lexer.tokenizeLoop (byteLen "1.2.3".data + 2) (Lexer.new "1.2.3".data) [] =
      .ok ([Token.NUMBER ⟨0, 1⟩],
        { tape := "1.2.3".data, cursor := 5, line := 1, errored := true, column := 6,
          errors := [LexError.badNumber ['1', '.', '2', '.'] 1 1] })) ∧
    (Lexer.tokenize (Lexer.new "1.2.3".data) =
      .ok (none,
        { tape := "1.2.3".data, cursor := 5, line := 1, errored := true, column := 6,
          errors := [LexError.badNumber ['1', '.', '2', '.'] 1 1] })) ∧
    (Lexer.tokenize (Lexer.new "1.2.".data) =
      .ok (some [Token.NUMBER ⟨12, 10⟩],
        { tape := "1.2.".data, cursor := 4, line := 1, errored := false, column := 5,
          errors := [] })) :=
  ⟨rfl, rfl, rfl⟩

/-- Claim C9: neither component mutates its input.  Whenever `tokenize`
returns, the tape is the one it started with, and whenever `parse`
returns, the token vector is the one it started with. -/
theorem c9_inputs_not_mutated :
    (∀ (st : Lexer) (r : Option (List Token)) (st' : Lexer),
      Lexer.tokenize st = .ok (r, st') → st'.tape = st.tape) ∧
    (∀ (fuel : Nat) (st : Parser) (r : Option ASTNode) (st' : Parser),
      Parser.parse fuel st = .out r st' → st'.tokens = st.tokens) :=
  ⟨fun st r st' h => (Lexer.tokenize_frame st r st' h).1,
   fun fuel st r st' h => ((Parser.psafe_parse fuel) st r st' h).1.symm⟩

/-- Witness for C9 at the concrete inputs `"x"` and `[end]`. -/
theorem c9_inputs_not_mutated_witness :
    (({ tape := ['x'], cursor := 1, line := 1, errored := false, column := 2,
        errors := [] } : Lexer).tape = (Lexer.new ['x']).tape) ∧
    ((Parser.new [Token.END]).tokens = (Parser.new [Token.END]).tokens) :=
  ⟨c9_inputs_not_mutated.1 (Lexer.new ['x']) (some [Token.NAME "x"])
      { tape := ['x'], cursor := 1, line := 1, errored := false, column := 2,
        errors := [] } rfl,
   c9_inputs_not_mutated.2 64 (Parser.new [Token.END])
      (some (ASTNode.Chunk [] none)) (Parser.new [Token.END]) rfl⟩

/-- Claim C10: the parser's cursor is monotonically non-decreasing
through `accept`, `expect`, `name`, `fieldsep`, every production method,
and `parse` itself; `backtrack` is defined in the source but has no call
site, and indeed no operation ever moves the cursor backwards. -/
theorem c10_cursor_monotone :
    (∀ t, Parser.CursorMono (Parser.accept t)) ∧
    (∀ t, Parser.CursorMono (Parser.expect t)) ∧
    Parser.CursorMono Parser.name ∧
    Parser.CursorMono Parser.fieldsep ∧
    (∀ fuel,
      Parser.CursorMono (Parser.explist1 fuel) ∧
      Parser.CursorMono (Parser.namelist fuel) ∧
      Parser.CursorMono (Parser.varlist fuel) ∧
      Parser.CursorMono (Parser.funcname fuel) ∧
      Parser.CursorMono (Parser.field fuel) ∧
      Parser.CursorMono (Parser.fieldlist fuel) ∧
      Parser.CursorMono (Parser.tableconstructor fuel) ∧
      Parser.CursorMono (Parser.args fuel) ∧
      Parser.CursorMono (Parser.functioncall fuel) ∧
      Parser.CursorMono (Parser.var fuel) ∧
      Parser.CursorMono (Parser.prefixexp fuel) ∧
      Parser.CursorMono (Parser.parlist1 fuel) ∧
      Parser.CursorMono (Parser.funcbody fuel) ∧
      Parser.CursorMono (Parser.function fuel) ∧
      Parser.CursorMono (Parser.exp_or fuel) ∧
      Parser.CursorMono (Parser.exp_and fuel) ∧
      Parser.CursorMono (Parser.exp_eqaulity fuel) ∧
      Parser.CursorMono (Parser.exp_concat fuel) ∧
      Parser.CursorMono (Parser.exp_term fuel) ∧
      Parser.CursorMono (Parser.exp_factor fuel) ∧
      Parser.CursorMono (Parser.exp_unary fuel) ∧
      Parser.CursorMono (Parser.exp_exponent fuel) ∧
      Parser.CursorMono (Parser.exp_primary fuel) ∧
      Parser.CursorMono (Parser.exp fuel) ∧
      Parser.CursorMono (Parser.stat fuel) ∧
      Parser.CursorMono (Parser.laststat fuel) ∧
      Parser.CursorMono (Parser.block fuel) ∧
      Parser.CursorMono (Parser.chunk fuel)) ∧
    (∀ fuel, Parser.CursorMono (Parser.parse fuel)) := by
  refine ⟨fun t st a st' h => ((Parser.psafe_accept t) st a st' h).2,
    fun t st a st' h => ((Parser.psafe_expect t) st a st' h).2,
    fun st a st' h => (Parser.psafe_name st a st' h).2,
    fun st a st' h => (Parser.psafe_fieldsep st a st' h).2,
    fun fuel => ?_,
    fun fuel st a st' h => ((Parser.psafe_parse fuel) st a st' h).2⟩
  obtain ⟨-, h1, -, h2, -, h3, -, h4, h5, -, h6, h7, h8, h9, h10, h11, h12,
    h13, h14, h15, h16, h17, h18, h19, h20, h21, h22, h23, h24, -, h25,
    -, h26, h27, -, h28⟩ := Parser.productions_safe fuel
  exact ⟨fun st a st' h => (h1 st a st' h).2,
    fun st a st' h => (h2 st a st' h).2,
    fun st a st' h => (h3 st a st' h).2,
    fun st a st' h => (h4 st a st' h).2,
    fun st a st' h => (h5 st a st' h).2,
    fun st a st' h => (h6 st a st' h).2,
    fun st a st' h => (h7 st a st' h).2,
    fun st a st' h => (h8 st a st' h).2,
    fun st a st' h => (h9 st a st' h).2,
    fun st a st' h => (h10 st a st' h).2,
    fun st a st' h => (h11 st a st' h).2,
    fun st a st' h => (h12 st a st' h).2,
    fun st a st' h => (h13 st a st' h).2,
    fun st a st' h => (h14 st a st' h).2,
    fun st a st' h => (h15 st a st' h).2,
    fun st a st' h => (h16 st a st' h).2,
    fun st a st' h => (h17 st a st' h).2,
    fun st a st' h => (h18 st a st' h).2,
    fun st a st' h => (h19 st a st' h).2,
    fun st a st' h => (h20 st a st' h).2,
    fun st a st' h => (h21 st a st' h).2,
    fun st a st' h => (h22 st a st' h).2,
    fun st a st' h => (h23 st a st' h).2,
    fun st a st' h => (h24 st a st' h).2,
    fun st a st' h => (h25 st a st' h).2,
    fun st a st' h => (h26 st a st' h).2,
    fun st a st' h => (h27 st a st' h).2,
    fun st a st' h => (h28 st a st' h).2⟩

/-- Witness for C10: `accept do` on `[do]` advances the cursor from `0`
to `1`, and the theorem bounds it below by the old cursor. -/
theorem c10_cursor_monotone_witness :
    (Parser.new [Token.DO]).cursor ≤ (Parser.advance (Parser.new [Token.DO])).cursor :=
  c10_cursor_monotone.1 Token.DO (Parser.new [Token.DO]) true
    (Parser.advance (Parser.new [Token.DO])) rfl

end LuaCompiler
